import Mathlib

/-!
Ukabu tracker daemon: strike tracker and blocklist manager

A shallow embedding of `go-daemon/pkg/strikes/tracker.go`,
`go-daemon/pkg/ipset/manager.go`, the driver interface of
`go-daemon/pkg/ipset/firewall.go`, `go-daemon/pkg/config/config.go` and the
request handling of `go-daemon/pkg/socket/server.go`.

Conventions of the embedding.

* A Go `int` is an `Int`; arithmetic that can leave the 64-bit range is
  wrapped with `wrapInt64`.
* A `time.Time` in UTC is an `Int` number of nanoseconds; every reading of
  `time.Now().UTC()` is an argument of the operation that performs it.
* A Go `map[string]T` is an association list read by `mapGet`; `mapSet` and
  `mapDelete` never leave two entries under one key reachable.
* The two tables of the embedded store are lists of rows; a statement
  against the store takes effect (the source logs a store error and
  carries on).  The one statement that cannot take effect is the `DELETE`
  that `CleanupExpired` sends while the cursor of its own `SELECT` is open:
  see `DB.deleteBlockedLocked`.
* The firewall driver shells out.  Its state is the member list of every
  kernel set together with the sequence of driver calls issued so far.
  Whether a given call fails is chosen by an argument `fails` of the
  top-level operation; a failed call changes nothing, a successful call has
  the effect of the corresponding `ipset` verb.
* An index out of range is a run-time panic: the operation yields `none`.
* Calls of the logger write to a sink that is never read back and are left
  out.
* The intake server is modelled on the sequence of lines its scanner
  delivers; `json.Unmarshal` and `json.Marshal` are parameters `decode` and
  `encode`, and a write on the connection appends to the list of writes.
* `Load` is modelled on a configuration file that opens and decodes; the
  file's content is a `RawConfig` in which a key left out is `none`.
-/

namespace Ukabu

/-! ## Integers and time -/

/-- UTC instant, in nanoseconds. -/
abbrev Time := Int

/-- Two's-complement wrap-around of a 64-bit Go `int` / `int64`. -/
def wrapInt64 (x : Int) : Int := (x + 2 ^ 63) % 2 ^ 64 - 2 ^ 63

/-- Largest value of a 64-bit Go `int`. -/
def maxInt64 : Int := 2 ^ 63 - 1

/-- Value of `time.Minute`: a minute in nanoseconds. -/
def Minute : Int := 60000000000

/-- Value of `now.Add(time.Duration(p) * time.Minute)`: the product is an `int64`. -/
def addMinutes (now : Time) (p : Int) : Time := now + wrapInt64 (p * Minute)

/-! ## Go maps as association lists -/

/-- Map read `m[key]`, with the `exists` flag as the option. -/
def mapGet {α : Type} : List (String × α) → String → Option α
  | [], _ => none
  | (k, v) :: m, key => if k = key then some v else mapGet m key

/-- Builtin `delete(m, key)`. -/
def mapDelete {α : Type} (m : List (String × α)) (key : String) : List (String × α) :=
  m.filter (fun e => decide (e.1 ≠ key))

/-- Map write `m[key] = v`. -/
def mapSet {α : Type} (m : List (String × α)) (key : String) (v : α) : List (String × α) :=
  (key, v) :: mapDelete m key

/-! ## package config -/

/-- Fields of `config.DomainConfig` read by the daemon (numeric fields and the excuse flag). -/
structure DomainConfig where
  POWDifficulty : Int := 0
  CookieDuration : Int := 0
  LockoutPeriod : Int := 0
  ExcuseFirstTimeout : Bool := false
deriving DecidableEq, Repr

/-- Numeric fields and excuse flag of `config.DefaultConfig`. -/
structure DefaultConfig where
  POWDifficulty : Int := 0
  CookieDuration : Int := 0
  LockoutPeriod : Int := 0
  ExcuseFirstTimeout : Bool := false
deriving DecidableEq, Repr

/-- Loaded configuration `config.Config`. -/
structure Config where
  Default : DefaultConfig
  Domains : List (String × DomainConfig)
deriving DecidableEq, Repr

/-- Method `(*Config).GetDomainConfig`: an absent domain yields the zero value and `false`. -/
def Config.GetDomainConfig (c : Config) (domain : String) : DomainConfig × Bool :=
  match mapGet c.Domains domain with
  | some cfg => (cfg, true)
  | none => ({}, false)

/-! ## package ipset: firewall driver -/

/-- One call of a `FirewallManager` method, with its arguments. -/
inductive FwCall where
  | create (name : String) (maxElem : Nat)
  | add (setName ip : String)
  | del (setName ip : String)
  | size (setName : String)
  | rules (setNames : List String)
deriving DecidableEq, Repr

/-- Kernel side of the driver: members of every set, and the calls issued, latest first. -/
structure FirewallManager where
  sets : String → List String
  calls : List FwCall

/-- Method `CreateIPSet`: returns whether `err != nil`. -/
def FirewallManager.CreateIPSet (fm : FirewallManager) (fails : FwCall → Bool)
    (name : String) (maxElem : Nat) : FirewallManager × Bool :=
  ({ fm with calls := FwCall.create name maxElem :: fm.calls }, fails (FwCall.create name maxElem))

/-- Method `AddIPToSet` (`ipset add -exist`): returns whether `err != nil`. -/
def FirewallManager.AddIPToSet (fm : FirewallManager) (fails : FwCall → Bool)
    (setName ip : String) : FirewallManager × Bool :=
  if fails (FwCall.add setName ip) then
    ({ fm with calls := FwCall.add setName ip :: fm.calls }, true)
  else
    ({ sets := fun n => if n = setName then (fm.sets n).insert ip else fm.sets n,
       calls := FwCall.add setName ip :: fm.calls }, false)

/-- Method `RemoveIPFromSet` (`ipset del -exist`): returns whether `err != nil`. -/
def FirewallManager.RemoveIPFromSet (fm : FirewallManager) (fails : FwCall → Bool)
    (setName ip : String) : FirewallManager × Bool :=
  if fails (FwCall.del setName ip) then
    ({ fm with calls := FwCall.del setName ip :: fm.calls }, true)
  else
    ({ sets := fun n => if n = setName then (fm.sets n).filter (fun x => decide (x ≠ ip))
                        else fm.sets n,
       calls := FwCall.del setName ip :: fm.calls }, false)

/-- Method `GetIPSetSize`: `none` stands for `err != nil`. -/
def FirewallManager.GetIPSetSize (fm : FirewallManager) (fails : FwCall → Bool)
    (setName : String) : FirewallManager × Option Nat :=
  ({ fm with calls := FwCall.size setName :: fm.calls },
   if fails (FwCall.size setName) then none else some (fm.sets setName).length)

/-- Method `InstallFirewallRules`: returns whether `err != nil`. -/
def FirewallManager.InstallFirewallRules (fm : FirewallManager) (fails : FwCall → Bool)
    (setNames : List String) : FirewallManager × Bool :=
  ({ fm with calls := FwCall.rules setNames :: fm.calls }, fails (FwCall.rules setNames))

/-! ## package ipset: blocklist manager -/

def PermanentSetName : String := "ukabu-permanent"

def WhitelistSetName : String := "ukabu-whitelist"

def SearchEngineSetName : String := "ukabu-search-engines"

def TemporarySetPrefix : String := "ukabu-temporary_"

def MaxIPsPerTemporarySet : Nat := 20000

/-- State of `ipset.Manager`; `nextTempSet` is only ever reset to 0 or incremented. -/
structure Manager where
  fw : FirewallManager
  temporarySets : List String
  nextTempSet : Nat

/-- Constructor `NewManager`. -/
def NewManager (fw : FirewallManager) : Manager :=
  { fw := fw, temporarySets := [], nextTempSet := 0 }

/-- Method `createTemporarySet`: returns whether `err != nil`. -/
def Manager.createTemporarySet (m : Manager) (fails : FwCall → Bool) (index : Nat) :
    Manager × Bool :=
  let setName := TemporarySetPrefix ++ toString index
  let r := m.fw.CreateIPSet fails setName MaxIPsPerTemporarySet
  if r.2 then
    ({ m with fw := r.1 }, true)
  else
    ({ m with fw := r.1, temporarySets := m.temporarySets ++ [setName] }, false)

/-- Method `Initialize`: `none` stands for a returned error. -/
def Manager.Initialize (m : Manager) (fails : FwCall → Bool) : Option Manager :=
  let r1 := m.fw.CreateIPSet fails PermanentSetName 50000
  if r1.2 then none else
  let r2 := r1.1.CreateIPSet fails WhitelistSetName 50000
  if r2.2 then none else
  let r3 := r2.1.CreateIPSet fails SearchEngineSetName 50000
  if r3.2 then none else
  let r4 := Manager.createTemporarySet { m with fw := r3.1 } fails 0
  if r4.2 then none else
  let r5 := r4.1.fw.InstallFirewallRules fails [PermanentSetName, TemporarySetPrefix ++ "0"]
  if r5.2 then none else
  some { r4.1 with fw := r5.1 }

/-- Method `GetAvailableTemporarySet`; `none` is the panic of an index out of range. -/
def Manager.GetAvailableTemporarySet (m : Manager) (fails : FwCall → Bool) :
    Option (Manager × String) :=
  match m.temporarySets[m.nextTempSet]? with
  | none => none
  | some currentSet =>
    let r := m.fw.GetIPSetSize fails currentSet
    let m1 : Manager := { m with fw := r.1 }
    match r.2 with
    | none => some (m1, currentSet)
    | some size =>
      if size < MaxIPsPerTemporarySet then some (m1, currentSet) else
      let m2 : Manager := { m1 with nextTempSet := m1.nextTempSet + 1 }
      if m2.nextTempSet ≥ m2.temporarySets.length then
        let index := m2.temporarySets.length
        let c := m2.createTemporarySet fails index
        if c.2 then
          let m3 : Manager := { c.1 with nextTempSet := 0 }
          match m3.temporarySets[0]? with
          | none => none
          | some first => some (m3, first)
        else
          match c.1.temporarySets[index]? with
          | none => none
          | some created =>
            let m4 : Manager := { c.1 with fw := (c.1.fw.InstallFirewallRules fails [created]).1 }
            match m4.temporarySets[m4.nextTempSet]? with
            | none => none
            | some name => some (m4, name)
      else
        match m2.temporarySets[m2.nextTempSet]? with
        | none => none
        | some name => some (m2, name)

/-- Method `AddIP`: returns whether `err != nil`. -/
def Manager.AddIP (m : Manager) (fails : FwCall → Bool) (setName ip : String) : Manager × Bool :=
  let r := m.fw.AddIPToSet fails setName ip
  ({ m with fw := r.1 }, r.2)

/-- Method `RemoveIP`: returns whether `err != nil`. -/
def Manager.RemoveIP (m : Manager) (fails : FwCall → Bool) (setName ip : String) :
    Manager × Bool :=
  let r := m.fw.RemoveIPFromSet fails setName ip
  ({ m with fw := r.1 }, r.2)

/-! ## package strikes: records, store, tracker -/

/-- Record `strikes.Strike`. -/
structure Strike where
  IP : String
  Domain : String
  StrikeCount : Int
  FirstFailure : Time
  LastFailure : Time
  FirstTimeoutExcused : Bool
  ExpiresAt : Option Time
deriving DecidableEq, Repr

/-- Row of table `blocked_ips` (primary key `ip`). -/
structure BlockedIP where
  ip : String
  domain : String
  blocked_at : Time
  lockout_expires : Option Time
  reason : String
  ipset_name : String
deriving DecidableEq, Repr

/-- Embedded store: table `strikes` (primary key `(ip, domain)`) and table `blocked_ips`. -/
structure DB where
  strikes : List Strike
  blocked_ips : List BlockedIP
deriving DecidableEq, Repr

/-- Statement `INSERT OR REPLACE INTO strikes ...`. -/
def DB.replaceStrike (db : DB) (s : Strike) : DB :=
  { db with strikes := s :: db.strikes.filter (fun r => !(r.IP == s.IP && r.Domain == s.Domain)) }

/-- Statement `DELETE FROM strikes WHERE ip = ? AND domain = ?`. -/
def DB.deleteStrike (db : DB) (ip domain : String) : DB :=
  { db with strikes := db.strikes.filter (fun r => !(r.IP == ip && r.Domain == domain)) }

/-- Statement `INSERT OR REPLACE INTO blocked_ips ...`. -/
def DB.replaceBlocked (db : DB) (row : BlockedIP) : DB :=
  { db with blocked_ips := row :: db.blocked_ips.filter (fun r => !(r.ip == row.ip)) }

/-- Statement `DELETE FROM blocked_ips WHERE ip = ?`, when it takes effect. -/
def DB.deleteBlocked (db : DB) (ip : String) : DB :=
  { db with blocked_ips := db.blocked_ips.filter (fun r => !(r.ip == ip)) }

/-- Statement `DELETE FROM blocked_ips WHERE ip = ?` as `CleanupExpired` issues it: through
`t.db.Exec` inside the `rows.Next()` loop, hence on a second pooled connection while the
cursor of the `SELECT` still holds its read lock.  SQLite refuses the write ("database is
locked"), the source drops the error, and the table is left as it is. -/
def DB.deleteBlockedLocked (db : DB) (_ip : String) : DB := db

/-- Whether a row satisfies `lockout_expires IS NOT NULL AND lockout_expires < ?`. -/
def BlockedIP.lapsed (r : BlockedIP) (now : Time) : Bool :=
  match r.lockout_expires with
  | some e => decide (e < now)
  | none => false

/-- Query `SELECT ip, ipset_name FROM blocked_ips WHERE lockout_expires ... < ?`. -/
def DB.expiredBlocked (db : DB) (now : Time) : List (String × String) :=
  (db.blocked_ips.filter (fun r => r.lapsed now)).map (fun r => (r.ip, r.ipset_name))

/-- State of `strikes.Tracker`. -/
structure Tracker where
  db : DB
  config : Config
  ipsetMgr : Manager
  strikes : List (String × Strike)

/-- Map key `ip + ":" + domain`. -/
def strikeKey (ip domain : String) : String := ip ++ ":" ++ domain

/-- Policy used by `RecordFailure`: the domain's entry, or the one built from the default. -/
def resolveDomainCfg (c : Config) (domain : String) : DomainConfig :=
  let r := c.GetDomainConfig domain
  if r.2 then r.1
  else { LockoutPeriod := c.Default.LockoutPeriod,
         ExcuseFirstTimeout := c.Default.ExcuseFirstTimeout }

/-- Record fetched or created by `RecordFailure` for a key. -/
def Tracker.fetchStrike (t : Tracker) (now : Time) (ip domain : String) : Strike :=
  match mapGet t.strikes (strikeKey ip domain) with
  | some s => s
  | none => { IP := ip, Domain := domain, StrikeCount := 0, FirstFailure := now,
              LastFailure := now, FirstTimeoutExcused := false, ExpiresAt := none }

/-- Local `shouldExcuse` of `RecordFailure`. -/
def shouldExcuse (reason : String) (domainCfg : DomainConfig) (strike : Strike) : Bool :=
  reason == "timeout" && domainCfg.ExcuseFirstTimeout && !strike.FirstTimeoutExcused

/-- Mutation of the record by `RecordFailure`: excusal, counter, expiry. -/
def updateStrike (now : Time) (reason : String) (domainCfg : DomainConfig) (strike : Strike) :
    Strike :=
  let excuse := shouldExcuse reason domainCfg strike
  let s1 : Strike := if excuse then { strike with FirstTimeoutExcused := true } else strike
  let s2 : Strike :=
    if !excuse then
      { s1 with StrikeCount := wrapInt64 (s1.StrikeCount + 1), LastFailure := now }
    else s1
  if domainCfg.LockoutPeriod > 0 then
    { s2 with ExpiresAt := some (addMinutes now domainCfg.LockoutPeriod) }
  else s2

/-- Method `saveStrike`. -/
def Tracker.saveStrike (t : Tracker) (strike : Strike) : Tracker :=
  { t with db := t.db.replaceStrike strike }

/-- Method `blockIP`; `now` is its own clock reading; `none` is a panic in the manager. -/
def Tracker.blockIP (t : Tracker) (now : Time) (fails : FwCall → Bool) (ip domain : String)
    (_strike : Strike) : Option Tracker :=
  let domainCfg := (t.config.GetDomainConfig domain).1
  let chosen : Option (Manager × String × Option Time) :=
    if domainCfg.LockoutPeriod = 0 then
      some (t.ipsetMgr, "ukabu-permanent", none)
    else
      match t.ipsetMgr.GetAvailableTemporarySet fails with
      | none => none
      | some r => some (r.1, r.2, some (addMinutes now domainCfg.LockoutPeriod))
  match chosen with
  | none => none
  | some (mgr, ipsetName, lockoutExpires) =>
    let a := mgr.AddIP fails ipsetName ip
    if a.2 then
      some { t with ipsetMgr := a.1 }
    else
      some { t with
        ipsetMgr := a.1
        db := t.db.replaceBlocked
          { ip := ip, domain := domain, blocked_at := now, lockout_expires := lockoutExpires,
            reason := "3_strikes", ipset_name := ipsetName } }

/-- State of the tracker once `RecordFailure` has stored and saved the record. -/
def Tracker.storeStrike (t : Tracker) (ip domain : String) (strike : Strike) : Tracker :=
  Tracker.saveStrike { t with strikes := mapSet t.strikes (strikeKey ip domain) strike } strike

/-- Method `RecordFailure`; `now` and `blockNow` are the clock readings of the method and
of `blockIP`; `none` is a panic. -/
def Tracker.RecordFailure (t : Tracker) (now blockNow : Time) (fails : FwCall → Bool)
    (ip domain reason : String) : Option (Tracker × Int × Bool) :=
  let domainCfg := resolveDomainCfg t.config domain
  let strike := updateStrike now reason domainCfg (t.fetchStrike now ip domain)
  let t1 := t.storeStrike ip domain strike
  if strike.StrikeCount ≥ 3 then
    match t1.blockIP blockNow fails ip domain strike with
    | none => none
    | some t2 => some (t2, strike.StrikeCount, true)
  else
    some (t1, strike.StrikeCount, false)

/-- Method `RecordSuccess`. -/
def Tracker.RecordSuccess (t : Tracker) (ip domain : String) : Tracker :=
  match mapGet t.strikes (strikeKey ip domain) with
  | some _ =>
    { t with strikes := mapDelete t.strikes (strikeKey ip domain)
             db := t.db.deleteStrike ip domain }
  | none => t

/-- Test `strike.ExpiresAt != nil && strike.ExpiresAt.Before(now)`. -/
def Strike.expired (s : Strike) (now : Time) : Bool :=
  match s.ExpiresAt with
  | some e => decide (e < now)
  | none => false

/-- Body of the first loop of `CleanupExpired`, for one entry of the index. -/
def Tracker.reapStrike (now : Time) (acc : Tracker) (e : String × Strike) : Tracker :=
  if e.2.expired now then
    { acc with strikes := mapDelete acc.strikes e.1
               db := acc.db.deleteStrike e.2.IP e.2.Domain }
  else acc

/-- Body of the second loop of `CleanupExpired`, for one row `(ip, ipset_name)`: the
driver call, then the `DELETE`, which this loop runs under its own open cursor. -/
def Tracker.unjail (fails : FwCall → Bool) (acc : Tracker) (row : String × String) : Tracker :=
  { acc with ipsetMgr := (acc.ipsetMgr.RemoveIP fails row.2 row.1).1
             db := acc.db.deleteBlockedLocked row.1 }

/-- Method `CleanupExpired`: the loop over the index, then the loop over the expired rows. -/
def Tracker.CleanupExpired (t : Tracker) (now : Time) (fails : FwCall → Bool) : Tracker :=
  let t1 := t.strikes.foldl (Tracker.reapStrike now) t
  (t1.db.expiredBlocked now).foldl (Tracker.unjail fails) t1

/-- Method `ActiveStrikes`. -/
def Tracker.ActiveStrikes (t : Tracker) : Nat := t.strikes.length

/-- Method `GetStrikeCount`. -/
def Tracker.GetStrikeCount (t : Tracker) (ip domain : String) : Int :=
  match mapGet t.strikes (strikeKey ip domain) with
  | some strike => strike.StrikeCount
  | none => 0

/-- Clause `expires_at IS NULL OR expires_at > ?` of the query of `loadStrikes`. -/
def Strike.unexpiredAt (s : Strike) (now : Time) : Bool :=
  match s.ExpiresAt with
  | some e => decide (e > now)
  | none => true

/-- Method `loadStrikes`, run at instant `now`: every row of table `strikes` that the query
selects is entered in the index under its key. -/
def Tracker.loadStrikes (t : Tracker) (now : Time) : Tracker :=
  (t.db.strikes.filter (fun s => s.unexpiredAt now)).foldl
    (fun acc s => { acc with strikes := mapSet acc.strikes (strikeKey s.IP s.Domain) s }) t

/-- Function `NewTracker` on the store `db`, at instant `now`: the schema statements create
the tables only when they are missing, then the index is loaded. -/
def NewTracker (db : DB) (cfg : Config) (ipsetMgr : Manager) (now : Time) : Tracker :=
  Tracker.loadStrikes { db := db, config := cfg, ipsetMgr := ipsetMgr, strikes := [] } now

/-! ## Runs of the tracker -/

/-- One call into the tracker, with the clock readings and driver outcomes it meets. -/
inductive Op where
  | failure (now blockNow : Time) (fails : FwCall → Bool) (ip domain reason : String)
  | success (ip domain : String)
  | cleanup (now : Time) (fails : FwCall → Bool)

/-- State after one call; `none` when the call panics. -/
def Tracker.step (t : Tracker) : Op → Option Tracker
  | Op.failure now blockNow fails ip domain reason =>
    (t.RecordFailure now blockNow fails ip domain reason).map (fun r => r.1)
  | Op.success ip domain => some (t.RecordSuccess ip domain)
  | Op.cleanup now fails => some (t.CleanupExpired now fails)

/-- State after a sequence of calls made one after the other. -/
def Tracker.run : Tracker → List Op → Option Tracker
  | t, [] => some t
  | t, op :: ops =>
    match t.step op with
    | none => none
    | some t1 => Tracker.run t1 ops

/-- Whether `RecordFailure` would excuse the call in state `t`. -/
def Tracker.excuses (t : Tracker) (now : Time) (ip domain reason : String) : Bool :=
  shouldExcuse reason (resolveDomainCfg t.config domain) (t.fetchStrike now ip domain)

/-- The call does not delete the record stored under `K` in state `t`. -/
def Op.keeps (K : String) (t : Tracker) : Op → Prop
  | Op.failure _ _ _ _ _ _ => True
  | Op.success ip domain => strikeKey ip domain = K → mapGet t.strikes K = none
  | Op.cleanup now _ => ∀ s, mapGet t.strikes K = some s → s.expired now = false

/-- The call is a `RecordFailure` on key `K` that is excused in state `t`. -/
def Op.excusedOn (K : String) (t : Tracker) : Op → Bool
  | Op.failure now _ _ ip domain reason =>
    decide (strikeKey ip domain = K) && t.excuses now ip domain reason
  | _ => false

/-- The call is a `RecordFailure` on key `K`. -/
def Op.failsOn (K : String) : Op → Bool
  | Op.failure _ _ _ ip domain _ => decide (strikeKey ip domain = K)
  | _ => false

/-- Property `P` holds of every call of the run, in the state the call is made in. -/
def Along (P : Tracker → Op → Prop) : Tracker → List Op → Prop
  | _, [] => True
  | t, op :: ops => P t op ∧ ∀ t1, t.step op = some t1 → Along P t1 ops

/-- Number of calls of the run that are excused failures on key `K`. -/
def excusedCount (K : String) : Tracker → List Op → Nat
  | _, [] => 0
  | t, op :: ops =>
    (if op.excusedOn K t then 1 else 0) +
      (match t.step op with
       | none => 0
       | some t1 => excusedCount K t1 ops)

/-- Index `nextTempSet` is within `temporarySets`. -/
def Manager.inRange (m : Manager) : Prop := m.nextTempSet < m.temporarySets.length

/-- Well-formed tracker state: the index is a map (one entry per key) and the manager's
index is in range, as after `Initialize`. -/
def Tracker.WF (t : Tracker) : Prop :=
  (t.strikes.map Prod.fst).Nodup ∧ t.ipsetMgr.inRange

/-! ## Sample states -/

/-- Driver outcome in which no call fails. -/
def noFault : FwCall → Bool := fun _ => false

/-- Configuration with a 30 minute domain that excuses the first timeout, a permanent
domain, and a 30 minute default. -/
def sampleConfig : Config :=
  { Default := { LockoutPeriod := 30, ExcuseFirstTimeout := true }
    Domains := [("example.com", { LockoutPeriod := 30, ExcuseFirstTimeout := true }),
                ("perm.example", { LockoutPeriod := 0, ExcuseFirstTimeout := false })] }

/-- Manager holding the first temporary set, with empty kernel sets and an empty call log. -/
def sampleMgr : Manager :=
  { fw := { sets := fun _ => [], calls := [] }
    temporarySets := ["ukabu-temporary_0"]
    nextTempSet := 0 }

/-- Tracker as `NewTracker` leaves it on an empty store. -/
def sampleTracker : Tracker :=
  { db := { strikes := [], blocked_ips := [] }
    config := sampleConfig
    ipsetMgr := sampleMgr
    strikes := [] }

/-- Sample tracker holding one record with `n` strikes for `(ip, domain)`. -/
def strikesOn (ip domain : String) (n : Int) : Tracker :=
  { sampleTracker with
    strikes := [(strikeKey ip domain,
      { IP := ip, Domain := domain, StrikeCount := n, FirstFailure := 0, LastFailure := 1,
        FirstTimeoutExcused := false, ExpiresAt := none })] }

/-- Sample tracker for the sweeper: an expired and a lasting strike, each saved in the
table, a temporary block that lapsed at instant 50 and a permanent block, both in the
kernel. -/
def sweepSample : Tracker :=
  { db :=
      { strikes :=
          [{ IP := "1.2.3.4", Domain := "example.com", StrikeCount := 3, FirstFailure := 0,
             LastFailure := 20, FirstTimeoutExcused := false, ExpiresAt := some 50 },
           { IP := "5.6.7.8", Domain := "perm.example", StrikeCount := 1, FirstFailure := 0,
             LastFailure := 30, FirstTimeoutExcused := false, ExpiresAt := none }]
        blocked_ips :=
          [{ ip := "1.2.3.4", domain := "example.com", blocked_at := 20,
             lockout_expires := some 50, reason := "3_strikes",
             ipset_name := "ukabu-temporary_0" },
           { ip := "9.9.9.9", domain := "perm.example", blocked_at := 10,
             lockout_expires := none, reason := "3_strikes",
             ipset_name := "ukabu-permanent" }] }
    config := sampleConfig
    ipsetMgr :=
      { fw := { sets := fun n =>
                  if n = "ukabu-temporary_0" then ["1.2.3.4"]
                  else if n = "ukabu-permanent" then ["9.9.9.9"] else []
                calls := [] }
        temporarySets := ["ukabu-temporary_0"]
        nextTempSet := 0 }
    strikes :=
      [(strikeKey "1.2.3.4" "example.com",
         { IP := "1.2.3.4", Domain := "example.com", StrikeCount := 3, FirstFailure := 0,
           LastFailure := 20, FirstTimeoutExcused := false, ExpiresAt := some 50 }),
       (strikeKey "5.6.7.8" "perm.example",
         { IP := "5.6.7.8", Domain := "perm.example", StrikeCount := 1, FirstFailure := 0,
           LastFailure := 30, FirstTimeoutExcused := false, ExpiresAt := none })] }

/-- Store left by an earlier run of the daemon: one strike row whose `expires_at` is
instant 50. -/
def staleStore : DB :=
  { strikes :=
      [{ IP := "1.2.3.4", Domain := "example.com", StrikeCount := 2, FirstFailure := 0,
         LastFailure := 20, FirstTimeoutExcused := true, ExpiresAt := some 50 }]
    blocked_ips := [] }

/-- States of the manager reachable from a successful `Initialize` of a new manager by calls
of `GetAvailableTemporarySet`, `AddIP` and `RemoveIP`, whatever the driver answers.  The
kernel sets met by `Initialize` are arbitrary: they outlive the daemon, and `ipset create`
is run with `-exist`. -/
inductive Manager.Reachable : Manager → Prop where
  | init (fw : FirewallManager) (fails : FwCall → Bool) (m : Manager) :
      (NewManager fw).Initialize fails = some m → Manager.Reachable m
  | get (m : Manager) (fails : FwCall → Bool) (m1 : Manager) (name : String) :
      Manager.Reachable m → m.GetAvailableTemporarySet fails = some (m1, name) →
      Manager.Reachable m1
  | add (m : Manager) (fails : FwCall → Bool) (setName ip : String) :
      Manager.Reachable m → Manager.Reachable (m.AddIP fails setName ip).1
  | remove (m : Manager) (fails : FwCall → Bool) (setName ip : String) :
      Manager.Reachable m → Manager.Reachable (m.RemoveIP fails setName ip).1

/-- Every shard is named by the prefix followed by its index. -/
def Manager.Named (m : Manager) : Prop :=
  ∀ i, i < m.temporarySets.length →
    m.temporarySets[i]? = some (TemporarySetPrefix ++ toString i)

/-- Kernel in which "ukabu-temporary_0" already holds 20000 addresses. -/
def fullKernel : FirewallManager :=
  { sets := fun n =>
      if n = "ukabu-temporary_0" then
        (List.range 20000).map
          (fun i => "10.0." ++ toString (i / 250) ++ "." ++ toString (i % 250))
      else []
    calls := [] }

/-- Manager that `Initialize` yields on `fullKernel` when every call succeeds. -/
def fullShard : Manager :=
  { fw :=
      { sets := fullKernel.sets
        calls :=
          [FwCall.rules ["ukabu-permanent", "ukabu-temporary_0"],
           FwCall.create "ukabu-temporary_0" 20000,
           FwCall.create "ukabu-search-engines" 50000,
           FwCall.create "ukabu-whitelist" 50000,
           FwCall.create "ukabu-permanent" 50000] }
    temporarySets := ["ukabu-temporary_0"]
    nextTempSet := 0 }

/-! ## package socket: intake server -/

/-- Request `socket.Message`; `Kind` is the Go field `Type`. -/
structure Message where
  Kind : String
  IP : String
  Domain : String
  Reason : String
  Timestamp : String
deriving DecidableEq, Repr

/-- Reply `socket.Response`. -/
structure Response where
  StrikeCount : Int
  Blocked : Bool
  Message : String
deriving DecidableEq, Repr

/-- One line delivered by `scanner.Text()`, with the clock readings and driver outcomes that
a tracker call made for this line meets. -/
structure Incoming where
  line : String
  now : Time
  blockNow : Time
  fails : FwCall → Bool

/-- Method `sendResponse`: one `conn.Write` of the marshalled reply and a newline; `encode`
is `json.Marshal`, `written` the writes made so far on the connection. -/
def sendResponse (encode : Response → String) (written : List String) (resp : Response) :
    List String :=
  written ++ [encode resp ++ "\n"]

/-- Method `handleMessage`; `none` when the tracker panics. -/
def handleMessage (encode : Response → String) (t : Tracker) (written : List String)
    (inc : Incoming) (msg : Message) : Option (Tracker × List String) :=
  if msg.Kind = "failure" then
    match t.RecordFailure inc.now inc.blockNow inc.fails msg.IP msg.Domain msg.Reason with
    | none => none
    | some r =>
      some (r.1, sendResponse encode written
        { StrikeCount := r.2.1, Blocked := r.2.2, Message := "" })
  else if msg.Kind = "success" then
    some (t.RecordSuccess msg.IP msg.Domain,
      sendResponse encode written { StrikeCount := 0, Blocked := false, Message := "" })
  else
    some (t, sendResponse encode written
      { StrikeCount := 0, Blocked := false, Message := "unknown message type" })

/-- Method `handleConnection` over the lines the scanner delivers; `decode` is
`json.Unmarshal` into a fresh `Message`, `none` standing for `err != nil`. -/
def handleConnection (decode : String → Option Message) (encode : Response → String) :
    Tracker → List String → List Incoming → Option (Tracker × List String)
  | t, written, [] => some (t, written)
  | t, written, inc :: rest =>
    if inc.line = "" then handleConnection decode encode t written rest
    else
      match decode inc.line with
      | none =>
        handleConnection decode encode t
          (sendResponse encode written
            { StrikeCount := 0, Blocked := false, Message := "invalid JSON" }) rest
      | some msg =>
        match handleMessage encode t written inc msg with
        | none => none
        | some r => handleConnection decode encode r.1 r.2 rest

/-- Protocol as the specification words it: the replies owed to a sequence of lines, one per
non-empty line and in order, and the tracker state they leave. -/
inductive Served (decode : String → Option Message) :
    Tracker → List Incoming → List Response → Tracker → Prop where
  | done (t : Tracker) : Served decode t [] [] t
  | blank (t t1 : Tracker) (inc : Incoming) (rest : List Incoming) (rs : List Response) :
      inc.line = "" → Served decode t rest rs t1 → Served decode t (inc :: rest) rs t1
  | failure (t t1 t2 : Tracker) (inc : Incoming) (rest : List Incoming) (rs : List Response)
      (msg : Message) (count : Int) (blocked : Bool) :
      inc.line ≠ "" → decode inc.line = some msg → msg.Kind = "failure" →
      t.RecordFailure inc.now inc.blockNow inc.fails msg.IP msg.Domain msg.Reason =
        some (t1, count, blocked) →
      Served decode t1 rest rs t2 →
      Served decode t (inc :: rest)
        ({ StrikeCount := count, Blocked := blocked, Message := "" } :: rs) t2
  | success (t t2 : Tracker) (inc : Incoming) (rest : List Incoming) (rs : List Response)
      (msg : Message) :
      inc.line ≠ "" → decode inc.line = some msg → msg.Kind = "success" →
      Served decode (t.RecordSuccess msg.IP msg.Domain) rest rs t2 →
      Served decode t (inc :: rest)
        ({ StrikeCount := 0, Blocked := false, Message := "" } :: rs) t2
  | invalid (t t2 : Tracker) (inc : Incoming) (rest : List Incoming) (rs : List Response) :
      inc.line ≠ "" → decode inc.line = none →
      Served decode t rest rs t2 →
      Served decode t (inc :: rest)
        ({ StrikeCount := 0, Blocked := false, Message := "invalid JSON" } :: rs) t2
  | unknown (t t2 : Tracker) (inc : Incoming) (rest : List Incoming) (rs : List Response)
      (msg : Message) (text : String) :
      inc.line ≠ "" → decode inc.line = some msg → msg.Kind ≠ "failure" →
      msg.Kind ≠ "success" → text ≠ "" →
      Served decode t rest rs t2 →
      Served decode t (inc :: rest)
        ({ StrikeCount := 0, Blocked := false, Message := text } :: rs) t2

/-- Sample decoder, standing for `json.Unmarshal` on the lines of the sample connection: a
failure request and a request of unknown type decode, any other line is malformed. -/
def sampleDecode (line : String) : Option Message :=
  if line = "\x7b\"type\":\"failure\",\"ip\":\"1.2.3.4\",\"domain\":\"example.com\",\"reason\":\"hmac_failed\"\x7d" then
    some { Kind := "failure", IP := "1.2.3.4", Domain := "example.com",
           Reason := "hmac_failed", Timestamp := "" }
  else if line = "\x7b\"type\":\"ping\"\x7d" then
    some { Kind := "ping", IP := "", Domain := "", Reason := "", Timestamp := "" }
  else none

/-- Sample encoder, standing for `json.Marshal` on replies whose message needs no escape. -/
def sampleEncode (r : Response) : String :=
  "\x7b\"strike_count\":" ++ toString r.StrikeCount ++ ",\"blocked\":" ++
    (if r.Blocked then "true" else "false") ++
    (if r.Message = "" then "" else ",\"message\":\"" ++ r.Message ++ "\"") ++ "\x7d"

/-- Sample connection: a malformed line, an empty line, a request of unknown type and a
failure request. -/
def sampleLines : List Incoming :=
  [{ line := "not json", now := 1, blockNow := 1, fails := noFault },
   { line := "", now := 2, blockNow := 2, fails := noFault },
   { line := "\x7b\"type\":\"ping\"\x7d", now := 3, blockNow := 3, fails := noFault },
   { line := "\x7b\"type\":\"failure\",\"ip\":\"1.2.3.4\",\"domain\":\"example.com\",\"reason\":\"hmac_failed\"\x7d",
     now := 4, blockNow := 4, fails := noFault }]

/-! ## package config: Load -/

/-- Numeric keys and excuse flag of one entry of `domains` as written in the configuration
file; `none` is a key left out. -/
structure RawDomain where
  pow_difficulty : Option Int
  cookie_duration : Option Int
  lockout_period : Option Int
  excuse_first_timeout : Option Bool
deriving DecidableEq, Repr

/-- Content of the configuration file: the `default` object and the `domains` object. -/
structure RawConfig where
  Default : RawDomain
  Domains : List (String × RawDomain)
deriving DecidableEq, Repr

/-- Decoding of a domain entry by `encoding/json`: a key left out keeps Go's zero value. -/
def RawDomain.decode (r : RawDomain) : DomainConfig :=
  { POWDifficulty := r.pow_difficulty.getD 0
    CookieDuration := r.cookie_duration.getD 0
    LockoutPeriod := r.lockout_period.getD 0
    ExcuseFirstTimeout := r.excuse_first_timeout.getD false }

/-- Decoding of the file into `Config` by `json.NewDecoder(file).Decode(&cfg)`. -/
def RawConfig.decode (raw : RawConfig) : Config :=
  { Default :=
      { POWDifficulty := raw.Default.pow_difficulty.getD 0
        CookieDuration := raw.Default.cookie_duration.getD 0
        LockoutPeriod := raw.Default.lockout_period.getD 0
        ExcuseFirstTimeout := raw.Default.excuse_first_timeout.getD false }
    Domains := raw.Domains.map (fun e => (e.1, e.2.decode)) }

/-- Body of the loop of `Load` for one domain: zero numeric fields take the default. -/
def applyDefaults (d : DefaultConfig) (dcfg : DomainConfig) : DomainConfig :=
  let c1 : DomainConfig :=
    if dcfg.POWDifficulty = 0 then { dcfg with POWDifficulty := d.POWDifficulty } else dcfg
  let c2 : DomainConfig :=
    if c1.CookieDuration = 0 then { c1 with CookieDuration := d.CookieDuration } else c1
  if c2.LockoutPeriod = 0 then { c2 with LockoutPeriod := d.LockoutPeriod } else c2

/-- Function `Load` on a file that opens and decodes. -/
def Load (raw : RawConfig) : Config :=
  let cfg := raw.decode
  { cfg with Domains := cfg.Domains.map (fun e => (e.1, applyDefaults cfg.Default e.2)) }

/-- Configuration file with a 30 minute default and a domain whose `lockout_period` is
written as 0. -/
def permanentRaw : RawConfig :=
  { Default := { pow_difficulty := some 4, cookie_duration := some 3600,
                 lockout_period := some 30, excuse_first_timeout := some false }
    Domains := [("perm.example",
      { pow_difficulty := none, cookie_duration := none, lockout_period := some 0,
        excuse_first_timeout := none })] }

/-- Tracker started on an empty store with the configuration loaded from `permanentRaw`. -/
def permanentTracker : Tracker :=
  { sampleTracker with config := Load permanentRaw }

/-! ## Auxiliary lemmas -/

theorem wrapInt64_of_range (x : Int) (h0 : -(2 ^ 63) ≤ x) (h1 : x ≤ maxInt64) : wrapInt64 x = x := by
  unfold wrapInt64
  unfold maxInt64 at h1
  have h : (x + 2 ^ 63) % 2 ^ 64 = x + 2 ^ 63 := Int.emod_eq_of_lt (by omega) (by omega)
  omega

theorem mapGet_mapDelete {α : Type} (m : List (String × α)) (k k' : String) :
    mapGet (mapDelete m k) k' = if k = k' then none else mapGet m k' := by
  induction m with
  | nil => simp [mapDelete, mapGet]
  | cons e m ih =>
    obtain ⟨a, v⟩ := e
    unfold mapDelete at ih ⊢
    by_cases h : a = k
    · subst h
      simp only [List.filter_cons, ne_eq, not_true_eq_false, decide_False, Bool.false_eq_true, if_false, ih, mapGet]
      by_cases h2 : a = k'
      · simp [h2]
      · simp [h2]
    · simp only [List.filter_cons, ne_eq, h, not_false_eq_true, decide_True, if_true, mapGet, ih]
      by_cases h2 : a = k'
      · subst h2
        simp [Ne.symm h]
      · simp [h2]

theorem mapGet_mapSet {α : Type} (m : List (String × α)) (k k' : String) (v : α) :
    mapGet (mapSet m k v) k' = if k = k' then some v else mapGet m k' := by
  unfold mapSet
  by_cases h : k = k'
  · simp [mapGet, h]
  · simp [mapGet, h, mapGet_mapDelete]


theorem GetAvailableTemporarySet_inRange (m : Manager) (fails : FwCall → Bool)
    (h : m.inRange) :
    ∃ m1 name, m.GetAvailableTemporarySet fails = some (m1, name) ∧ m1.inRange ∧
      m1.fw.sets = m.fw.sets := by
  unfold Manager.inRange at h
  unfold Manager.GetAvailableTemporarySet
  rw [List.getElem?_eq_getElem h]
  simp only [FirewallManager.GetIPSetSize]
  by_cases hf : fails (FwCall.size m.temporarySets[m.nextTempSet]) = true
  · simp [hf, Manager.inRange, h]
  · simp only [hf, Bool.false_eq_true, if_false]
    by_cases hs : (m.fw.sets m.temporarySets[m.nextTempSet]).length < MaxIPsPerTemporarySet
    · simp [hs, Manager.inRange, h]
    · simp only [hs, if_false]
      by_cases hn : m.nextTempSet + 1 ≥ m.temporarySets.length
      · simp only [hn, if_true, Manager.createTemporarySet, FirewallManager.CreateIPSet]
        by_cases hc : fails (FwCall.create (TemporarySetPrefix ++ toString m.temporarySets.length) MaxIPsPerTemporarySet) = true
        · have h0 : 0 < m.temporarySets.length := by omega
          simp [hc, Manager.inRange, List.getElem?_eq_getElem h0, h0]
        · have hlen : m.nextTempSet + 1 = m.temporarySets.length := by omega
          simp [hc, Manager.inRange, FirewallManager.InstallFirewallRules, hlen]
      · have hn2 : m.nextTempSet + 1 < m.temporarySets.length := by omega
        simp [hn, Manager.inRange, List.getElem?_eq_getElem hn2, hn2]


theorem AddIP_fields (m : Manager) (fails : FwCall → Bool) (setName ip : String) :
    (m.AddIP fails setName ip).1.temporarySets = m.temporarySets ∧
    (m.AddIP fails setName ip).1.nextTempSet = m.nextTempSet := by
  simp [Manager.AddIP]

theorem blockIP_some (t : Tracker) (now : Time) (fails : FwCall → Bool) (ip domain : String)
    (s : Strike) (h : t.ipsetMgr.inRange) :
    ∃ t1, t.blockIP now fails ip domain s = some t1 ∧ t1.strikes = t.strikes ∧
      t1.config = t.config ∧ t1.ipsetMgr.inRange ∧ t1.db.strikes = t.db.strikes := by
  unfold Tracker.blockIP
  by_cases h0 : (t.config.GetDomainConfig domain).1.LockoutPeriod = 0
  · simp only [h0, if_true]
    by_cases ha : (t.ipsetMgr.AddIP fails "ukabu-permanent" ip).2 = true
    · simp [ha, Manager.inRange, AddIP_fields]
      exact h
    · simp [ha, Manager.inRange, AddIP_fields, DB.replaceBlocked]
      exact h
  · obtain ⟨m1, name, hg, hr, _⟩ := GetAvailableTemporarySet_inRange t.ipsetMgr fails h
    simp only [h0, if_false, hg]
    by_cases ha : (m1.AddIP fails name ip).2 = true
    · simp [ha, Manager.inRange, AddIP_fields]
      exact hr
    · simp [ha, Manager.inRange, AddIP_fields, DB.replaceBlocked]
      exact hr

theorem RecordFailure_some (t : Tracker) (now blockNow : Time) (fails : FwCall → Bool)
    (ip domain reason : String) (h : t.ipsetMgr.inRange) :
    ∃ t1, t.RecordFailure now blockNow fails ip domain reason =
        some (t1, (updateStrike now reason (resolveDomainCfg t.config domain)
                    (t.fetchStrike now ip domain)).StrikeCount,
              decide ((updateStrike now reason (resolveDomainCfg t.config domain)
                    (t.fetchStrike now ip domain)).StrikeCount ≥ 3)) ∧
      t1.strikes = mapSet t.strikes (strikeKey ip domain)
        (updateStrike now reason (resolveDomainCfg t.config domain)
          (t.fetchStrike now ip domain)) ∧
      t1.config = t.config ∧ t1.ipsetMgr.inRange := by
  unfold Tracker.RecordFailure
  by_cases hc : (updateStrike now reason (resolveDomainCfg t.config domain)
      (t.fetchStrike now ip domain)).StrikeCount ≥ 3
  · simp only [hc, if_true, decide_True]
    obtain ⟨t2, hb, hs, hcfg, hr, _⟩ := blockIP_some
      (t.storeStrike ip domain (updateStrike now reason (resolveDomainCfg t.config domain)
        (t.fetchStrike now ip domain))) blockNow fails ip domain
      (updateStrike now reason (resolveDomainCfg t.config domain) (t.fetchStrike now ip domain))
      (by simpa [Tracker.storeStrike, Tracker.saveStrike] using h)
    rw [hb]
    refine ⟨t2, rfl, ?_, ?_, hr⟩
    · rw [hs]; simp [Tracker.storeStrike, Tracker.saveStrike]
    · rw [hcfg]; simp [Tracker.storeStrike, Tracker.saveStrike]
  · simp only [hc, if_false, decide_False]
    refine ⟨_, rfl, ?_, ?_, ?_⟩
    · simp [Tracker.storeStrike, Tracker.saveStrike]
    · simp [Tracker.storeStrike, Tracker.saveStrike]
    · simpa [Tracker.storeStrike, Tracker.saveStrike] using h

theorem nodup_mapDelete {α : Type} (m : List (String × α)) (k : String)
    (h : (m.map Prod.fst).Nodup) : ((mapDelete m k).map Prod.fst).Nodup := by
  unfold mapDelete
  exact h.sublist ((List.filter_sublist _).map _)

theorem nodup_mapSet {α : Type} (m : List (String × α)) (k : String) (v : α)
    (h : (m.map Prod.fst).Nodup) : ((mapSet m k v).map Prod.fst).Nodup := by
  unfold mapSet
  rw [List.map_cons, List.nodup_cons]
  refine ⟨?_, nodup_mapDelete m k h⟩
  intro hmem
  rw [List.mem_map] at hmem
  obtain ⟨e, he, hk⟩ := hmem
  unfold mapDelete at he
  rw [List.mem_filter] at he
  simp at he
  exact he.2 hk

theorem mapGet_of_mem {α : Type} (m : List (String × α)) (h : (m.map Prod.fst).Nodup)
    (k : String) (v : α) (hm : (k, v) ∈ m) : mapGet m k = some v := by
  induction m with
  | nil => simp at hm
  | cons e m ih =>
    obtain ⟨a, b⟩ := e
    rw [List.map_cons, List.nodup_cons] at h
    rw [List.mem_cons] at hm
    rcases hm with hm | hm
    · cases hm
      simp [mapGet]
    · have hne : a ≠ k := by
        intro hak
        apply h.1
        rw [List.mem_map]
        exact ⟨(k, v), hm, hak.symm⟩
      simp [mapGet, hne, ih h.2 hm]

theorem mapGet_filter_key {α : Type} (m : List (String × α)) (p : String → Bool) (K : String) :
    mapGet (m.filter (fun x => p x.1)) K = if p K then mapGet m K else none := by
  induction m with
  | nil => simp [mapGet]
  | cons e m ih =>
    obtain ⟨a, b⟩ := e
    by_cases hp : p a = true
    · simp only [List.filter_cons, hp, if_true, mapGet, ih]
      by_cases hk : a = K
      · subst hk; simp [hp]
      · simp [hk]
    · have hf : List.filter (fun x : String × α => p x.1) ((a, b) :: m) =
          List.filter (fun x : String × α => p x.1) m := by
        simp [List.filter_cons, hp]
      rw [hf, ih]
      by_cases hk : a = K
      · subst hk; simp [hp]
      · simp [mapGet, hk]

theorem reap_fold (now : Time) (es : List (String × Strike)) (acc : Tracker) :
    (es.foldl (Tracker.reapStrike now) acc).strikes =
        acc.strikes.filter
          (fun x => !(es.any (fun e => e.2.expired now && decide (e.1 = x.1)))) ∧
      (es.foldl (Tracker.reapStrike now) acc).config = acc.config ∧
      (es.foldl (Tracker.reapStrike now) acc).ipsetMgr = acc.ipsetMgr ∧
      (es.foldl (Tracker.reapStrike now) acc).db.blocked_ips = acc.db.blocked_ips := by
  induction es generalizing acc with
  | nil => simp
  | cons e es ih =>
    rw [List.foldl_cons]
    obtain ⟨h1, h2, h3, h4⟩ := ih (Tracker.reapStrike now acc e)
    rw [h1, h2, h3, h4]
    by_cases hx : e.2.expired now = true
    · simp only [Tracker.reapStrike, hx, if_true, mapDelete, List.filter_filter, DB.deleteStrike,
        List.any_cons, Bool.true_and, and_true]
      apply List.filter_congr
      intro x _
      by_cases hk : e.1 = x.1
      · simp [hk]
      · simp [hk, Ne.symm hk]
    · simp [Tracker.reapStrike, hx]

theorem unjail_fold (fails : FwCall → Bool) (rows : List (String × String)) (acc : Tracker) :
    (rows.foldl (Tracker.unjail fails) acc).strikes = acc.strikes ∧
      (rows.foldl (Tracker.unjail fails) acc).config = acc.config ∧
      (rows.foldl (Tracker.unjail fails) acc).ipsetMgr.temporarySets =
        acc.ipsetMgr.temporarySets ∧
      (rows.foldl (Tracker.unjail fails) acc).ipsetMgr.nextTempSet = acc.ipsetMgr.nextTempSet ∧
      (rows.foldl (Tracker.unjail fails) acc).db.strikes = acc.db.strikes := by
  induction rows generalizing acc with
  | nil => simp
  | cons r rows ih =>
    rw [List.foldl_cons]
    obtain ⟨h1, h2, h3, h4, h5⟩ := ih (Tracker.unjail fails acc r)
    rw [h1, h2, h3, h4, h5]
    simp [Tracker.unjail, Manager.RemoveIP, DB.deleteBlockedLocked]

theorem CleanupExpired_strikes (t : Tracker) (now : Time) (fails : FwCall → Bool) :
    (t.CleanupExpired now fails).strikes =
        t.strikes.filter
          (fun x => !(t.strikes.any (fun e => e.2.expired now && decide (e.1 = x.1)))) ∧
      (t.CleanupExpired now fails).config = t.config ∧
      (t.CleanupExpired now fails).ipsetMgr.temporarySets = t.ipsetMgr.temporarySets ∧
      (t.CleanupExpired now fails).ipsetMgr.nextTempSet = t.ipsetMgr.nextTempSet := by
  unfold Tracker.CleanupExpired
  obtain ⟨h1, h2, h3, h4, _⟩ := unjail_fold fails
    ((t.strikes.foldl (Tracker.reapStrike now) t).db.expiredBlocked now)
    (t.strikes.foldl (Tracker.reapStrike now) t)
  obtain ⟨g1, g2, g3, _⟩ := reap_fold now t.strikes t
  simp only [h1, h2, h3, h4, g1, g2, g3, and_self]

theorem CleanupExpired_keep (t : Tracker) (now : Time) (fails : FwCall → Bool) (K : String)
    (hnd : (t.strikes.map Prod.fst).Nodup)
    (hk : ∀ s, mapGet t.strikes K = some s → s.expired now = false) :
    mapGet (t.CleanupExpired now fails).strikes K = mapGet t.strikes K := by
  rw [(CleanupExpired_strikes t now fails).1]
  rw [mapGet_filter_key t.strikes
    (fun k => !(t.strikes.any (fun e => e.2.expired now && decide (e.1 = k)))) K]
  by_cases hany : (t.strikes.any (fun e => e.2.expired now && decide (e.1 = K))) = true
  · rw [List.any_eq_true] at hany
    obtain ⟨e, he, hx⟩ := hany
    simp at hx
    obtain ⟨a, b⟩ := e
    simp at hx
    obtain ⟨hx1, hx2⟩ := hx
    subst hx2
    have := mapGet_of_mem t.strikes hnd a b he
    have := hk b this
    simp [hx1] at this
  · simp [hany]

theorem CleanupExpired_WF (t : Tracker) (now : Time) (fails : FwCall → Bool) (h : t.WF) :
    (t.CleanupExpired now fails).WF := by
  obtain ⟨h1, _, h3, h4⟩ := CleanupExpired_strikes t now fails
  unfold Tracker.WF Manager.inRange at *
  rw [h1, h3, h4]
  exact ⟨h.1.sublist ((List.filter_sublist _).map _), h.2⟩

theorem RecordFailure_WF (t : Tracker) (now blockNow : Time) (fails : FwCall → Bool)
    (ip domain reason : String) (h : t.WF) :
    ∃ t1, t.RecordFailure now blockNow fails ip domain reason =
        some (t1, (updateStrike now reason (resolveDomainCfg t.config domain)
                    (t.fetchStrike now ip domain)).StrikeCount,
              decide ((updateStrike now reason (resolveDomainCfg t.config domain)
                    (t.fetchStrike now ip domain)).StrikeCount ≥ 3)) ∧
      t1.strikes = mapSet t.strikes (strikeKey ip domain)
        (updateStrike now reason (resolveDomainCfg t.config domain)
          (t.fetchStrike now ip domain)) ∧
      t1.config = t.config ∧ t1.WF := by
  obtain ⟨t1, h1, h2, h3, h4⟩ := RecordFailure_some t now blockNow fails ip domain reason h.2
  refine ⟨t1, h1, h2, h3, ?_, h4⟩
  rw [h2]
  exact nodup_mapSet _ _ _ h.1

theorem RecordSuccess_WF (t : Tracker) (ip domain : String) (h : t.WF) :
    (t.RecordSuccess ip domain).WF ∧ (t.RecordSuccess ip domain).config = t.config := by
  unfold Tracker.RecordSuccess
  cases hg : mapGet t.strikes (strikeKey ip domain) with
  | none => exact ⟨h, rfl⟩
  | some s => exact ⟨⟨nodup_mapDelete _ _ h.1, h.2⟩, rfl⟩

theorem step_get (t : Tracker) (op : Op) (K : String) (hwf : t.WF) (hk : op.keeps K t) :
    ∃ t1, t.step op = some t1 ∧ t1.WF ∧ t1.config = t.config ∧
      mapGet t1.strikes K =
        (match op with
         | Op.failure now _ _ ip domain reason =>
           if strikeKey ip domain = K then
             some (updateStrike now reason (resolveDomainCfg t.config domain)
               (t.fetchStrike now ip domain))
           else mapGet t.strikes K
         | _ => mapGet t.strikes K) := by
  cases op with
  | failure now blockNow fails ip domain reason =>
    obtain ⟨t1, h1, h2, h3, h4⟩ := RecordFailure_WF t now blockNow fails ip domain reason hwf
    refine ⟨t1, ?_, h4, h3, ?_⟩
    · simp [Tracker.step, h1]
    · simp only [h2, mapGet_mapSet]
  | success ip domain =>
    refine ⟨t.RecordSuccess ip domain, rfl, (RecordSuccess_WF t ip domain hwf).1,
      (RecordSuccess_WF t ip domain hwf).2, ?_⟩
    simp only [Op.keeps] at hk
    unfold Tracker.RecordSuccess
    cases hg : mapGet t.strikes (strikeKey ip domain) with
    | none => rfl
    | some s =>
      simp only [mapGet_mapDelete]
      by_cases hK : strikeKey ip domain = K
      · have := hk hK
        rw [hK] at hg
        rw [hg] at this
        cases this
      · simp [hK]
  | cleanup now fails =>
    refine ⟨t.CleanupExpired now fails, rfl, CleanupExpired_WF t now fails hwf,
      (CleanupExpired_strikes t now fails).2.1, ?_⟩
    exact CleanupExpired_keep t now fails K hwf.1 hk

theorem along_append (P : Tracker → Op → Prop) (xs ys : List Op) (t : Tracker) :
    Along P t (xs ++ ys) ↔ Along P t xs ∧ ∀ t1, t.run xs = some t1 → Along P t1 ys := by
  induction xs generalizing t with
  | nil => simp [Along, Tracker.run]
  | cons x xs ih =>
    simp only [List.cons_append, Along, Tracker.run]
    constructor
    · rintro ⟨hp, hrest⟩
      refine ⟨⟨hp, fun t1 h1 => ((ih t1).1 (hrest t1 h1)).1⟩, ?_⟩
      intro t2 hrun
      cases hs : t.step x with
      | none => simp [hs] at hrun
      | some t1 =>
        simp only [hs] at hrun
        exact ((ih t1).1 (hrest t1 hs)).2 t2 hrun
    · rintro ⟨⟨hp, hrest⟩, hys⟩
      refine ⟨hp, fun t1 h1 => (ih t1).2 ⟨hrest t1 h1, ?_⟩⟩
      intro t2 hrun
      apply hys
      simp only [h1]
      exact hrun

theorem updateStrike_count (now : Time) (reason : String) (cfg : DomainConfig) (s : Strike) :
    (updateStrike now reason cfg s).StrikeCount =
      if shouldExcuse reason cfg s then s.StrikeCount else wrapInt64 (s.StrikeCount + 1) := by
  unfold updateStrike
  by_cases he : shouldExcuse reason cfg s = true <;>
    by_cases hl : cfg.LockoutPeriod > 0 <;> simp [he, hl]

theorem fetchStrike_count (t : Tracker) (now : Time) (ip domain : String) :
    (t.fetchStrike now ip domain).StrikeCount = t.GetStrikeCount ip domain := by
  unfold Tracker.fetchStrike Tracker.GetStrikeCount
  cases mapGet t.strikes (strikeKey ip domain) <;> rfl

theorem run_counts (ip domain : String) (ops : List Op) (t : Tracker) (hwf : t.WF)
    (hal : Along (fun s op => op.keeps (strikeKey ip domain) s ∧
      op.excusedOn (strikeKey ip domain) s = false) t ops)
    (h0 : 0 ≤ t.GetStrikeCount ip domain)
    (hb : t.GetStrikeCount ip domain +
      (ops.countP (fun op => op.failsOn (strikeKey ip domain)) : Nat) ≤ maxInt64) :
    ∃ t1, t.run ops = some t1 ∧ t1.WF ∧ t1.config = t.config ∧
      t1.GetStrikeCount ip domain = t.GetStrikeCount ip domain +
        (ops.countP (fun op => op.failsOn (strikeKey ip domain)) : Nat) := by
  induction ops generalizing t with
  | nil => exact ⟨t, rfl, hwf, rfl, by simp⟩
  | cons op ops ih =>
    obtain ⟨hp, hrest⟩ := hal
    obtain ⟨t1, hs, hwf1, hcfg1, hget⟩ := step_get t op (strikeKey ip domain) hwf hp.1
    have hcount : t1.GetStrikeCount ip domain = t.GetStrikeCount ip domain +
        (if op.failsOn (strikeKey ip domain) then 1 else 0) := by
      unfold Tracker.GetStrikeCount
      rw [hget]
      cases op with
      | failure now blockNow fails ip1 domain1 reason =>
        by_cases hK : strikeKey ip1 domain1 = strikeKey ip domain
        · have hex : shouldExcuse reason (resolveDomainCfg t.config domain1)
              (t.fetchStrike now ip1 domain1) = false := by
            have := hp.2
            simpa [Op.excusedOn, hK, Tracker.excuses] using this
          have hcnt : (t.fetchStrike now ip1 domain1).StrikeCount =
              t.GetStrikeCount ip domain := by
            unfold Tracker.fetchStrike Tracker.GetStrikeCount
            rw [hK]
            cases mapGet t.strikes (strikeKey ip domain) <;> rfl
          simp only [hK, if_true, Op.failsOn, decide_True, updateStrike_count, hex, hcnt]
          have hb2 : t.GetStrikeCount ip domain + 1 ≤ maxInt64 := by
            simp only [List.countP_cons, Op.failsOn, hK, decide_True, if_true] at hb
            push_cast at hb
            omega
          rw [wrapInt64_of_range _ (by omega) hb2]
          simp [Tracker.GetStrikeCount]
        · simp [hK, Op.failsOn]
      | success ip1 domain1 => simp [Op.failsOn]
      | cleanup now fails => simp [Op.failsOn]
    have hb1 : t1.GetStrikeCount ip domain +
        (ops.countP (fun op => op.failsOn (strikeKey ip domain)) : Nat) ≤ maxInt64 := by
      rw [hcount]
      rw [List.countP_cons] at hb
      push_cast at hb
      omega
    have h01 : 0 ≤ t1.GetStrikeCount ip domain := by
      rw [hcount]; split_ifs <;> omega
    obtain ⟨t2, hr, hwf2, hcfg2, hc2⟩ := ih t1 hwf1 (hrest t1 hs) h01 hb1
    refine ⟨t2, ?_, hwf2, hcfg2.trans hcfg1, ?_⟩
    · simp [Tracker.run, hs, hr]
    · rw [hc2, hcount, List.countP_cons]
      push_cast
      omega

theorem Initialize_inRange (fw : FirewallManager) (fails : FwCall → Bool) (m : Manager)
    (h : (NewManager fw).Initialize fails = some m) : m.inRange := by
  unfold Manager.Initialize at h
  simp only [NewManager, FirewallManager.CreateIPSet, Manager.createTemporarySet,
    FirewallManager.InstallFirewallRules] at h
  by_cases h1 : fails (FwCall.create PermanentSetName 50000) = true
  · simp [h1] at h
  by_cases h2 : fails (FwCall.create WhitelistSetName 50000) = true
  · simp [h1, h2] at h
  by_cases h3 : fails (FwCall.create SearchEngineSetName 50000) = true
  · simp [h1, h2, h3] at h
  by_cases h4 : fails (FwCall.create (TemporarySetPrefix ++ toString 0)
      MaxIPsPerTemporarySet) = true
  · simp [h1, h2, h3, h4] at h
  by_cases h5 : fails (FwCall.rules [PermanentSetName, TemporarySetPrefix ++ "0"]) = true
  · simp [h1, h2, h3, h4, h5] at h
  simp only [h1, h2, h3, h4, h5, Bool.false_eq_true, if_false, Option.some.injEq] at h
  subst h
  simp [Manager.inRange]

/-! ## Claims -/

/-- C1: on a key with no strike record, when `RecordFailure` is called `k` times on the key
(the calls of `pre` on that key, then the last call), none of them excused, and no call in
between deletes the key's record, the `k`-th call returns strike count `k` and
`GetStrikeCount` is `k` afterwards; `k` is a value of a Go `int`. -/
theorem C1_kth_failure_returns_k (t : Tracker) (ip domain reason : String)
    (now blockNow : Time) (fails : FwCall → Bool) (pre : List Op) (k : Nat)
    (hwf : t.WF)
    (hfresh : mapGet t.strikes (strikeKey ip domain) = none)
    (hcalls : (pre ++ [Op.failure now blockNow fails ip domain reason]).countP
      (fun op => op.failsOn (strikeKey ip domain)) = k)
    (hrun : Along (fun s op => op.keeps (strikeKey ip domain) s ∧
      op.excusedOn (strikeKey ip domain) s = false) t
      (pre ++ [Op.failure now blockNow fails ip domain reason]))
    (hint : (k : Int) ≤ maxInt64) :
    1 ≤ k ∧ ∃ t1 t2 blocked, t.run pre = some t1 ∧
      t1.RecordFailure now blockNow fails ip domain reason = some (t2, (k : Int), blocked) ∧
      t2.GetStrikeCount ip domain = (k : Int) := by
  have hk1 : pre.countP (fun op => op.failsOn (strikeKey ip domain)) + 1 = k := by
    rw [← hcalls, List.countP_append]
    simp [Op.failsOn]
  obtain ⟨hpre, hlast⟩ := (along_append _ pre _ t).1 hrun
  have hzero : t.GetStrikeCount ip domain = 0 := by
    unfold Tracker.GetStrikeCount
    rw [hfresh]
  obtain ⟨t1, hr1, hwf1, hcfg1, hc1⟩ := run_counts ip domain pre t hwf hpre
    (by rw [hzero]) (by rw [hzero]; omega)
  have hl := hlast t1 hr1
  simp only [Along, Op.excusedOn, decide_True, Bool.true_and, Tracker.excuses] at hl
  obtain ⟨t2, h2, hs2, _, _⟩ := RecordFailure_WF t1 now blockNow fails ip domain reason hwf1
  have hcount : (updateStrike now reason (resolveDomainCfg t1.config domain)
      (t1.fetchStrike now ip domain)).StrikeCount = (k : Int) := by
    rw [updateStrike_count, hl.1.2, fetchStrike_count, hc1, hzero]
    simp only [Bool.false_eq_true, if_false]
    rw [wrapInt64_of_range _ (by omega) (by omega)]
    omega
  refine ⟨by omega, t1, t2, decide ((k : Int) ≥ 3), hr1, ?_, ?_⟩
  · rw [h2, hcount]
  · unfold Tracker.GetStrikeCount
    rw [hs2, mapGet_mapSet]
    simp [hcount]

/-- Witness of C1: two counted failures on a fresh key of the sample tracker. -/
theorem C1_kth_failure_returns_k_witness :
    ∃ t1 t2 blocked,
      sampleTracker.run [Op.failure 0 0 noFault "1.2.3.4" "example.com" "invalid_solution"]
        = some t1 ∧
      t1.RecordFailure 5 5 noFault "1.2.3.4" "example.com" "hmac_failed"
        = some (t2, ((2 : Nat) : Int), blocked) ∧
      t2.GetStrikeCount "1.2.3.4" "example.com" = ((2 : Nat) : Int) :=
  (C1_kth_failure_returns_k sampleTracker "1.2.3.4" "example.com" "hmac_failed" 5 5 noFault
    [Op.failure 0 0 noFault "1.2.3.4" "example.com" "invalid_solution"] 2
    (by simp [Tracker.WF, Manager.inRange, sampleTracker, sampleMgr])
    (by simp [sampleTracker, mapGet])
    (by simp [List.countP_cons, Op.failsOn])
    (by simp [Along, Op.keeps, Op.excusedOn, Tracker.excuses, shouldExcuse])
    (by simp [maxInt64])).2

theorem blockIP_calls (t : Tracker) (now : Time) (fails : FwCall → Bool) (ip domain : String)
    (s : Strike) (h : t.ipsetMgr.inRange) :
    ∃ t1 setName rest, t.blockIP now fails ip domain s = some t1 ∧
      t1.ipsetMgr.fw.calls = FwCall.add setName ip :: rest := by
  unfold Tracker.blockIP
  by_cases h0 : (t.config.GetDomainConfig domain).1.LockoutPeriod = 0
  · simp only [h0, if_true]
    by_cases ha : fails (FwCall.add "ukabu-permanent" ip) = true
    · simp [ha, Manager.AddIP, FirewallManager.AddIPToSet]
    · simp [ha, Manager.AddIP, FirewallManager.AddIPToSet]
  · obtain ⟨m1, name, hg, _, _⟩ := GetAvailableTemporarySet_inRange t.ipsetMgr fails h
    simp only [h0, if_false, hg]
    by_cases ha : fails (FwCall.add name ip) = true
    · simp [ha, Manager.AddIP, FirewallManager.AddIPToSet]
    · simp [ha, Manager.AddIP, FirewallManager.AddIPToSet]

/-- C2: a call of `RecordFailure` returns the strike count of the record it has just saved
for the key, which is also what `GetStrikeCount` reads afterwards, and returns
`blocked = true` exactly when that count is at least 3; in that case the state it leaves is
the one `blockIP` produces from the saved record, with an add of the IP as the latest driver
call, and otherwise `blockIP` is not run: the state is the saved record's and no driver call
is issued. -/
theorem C2_blocked_iff_count_ge_three (t : Tracker) (now blockNow : Time)
    (fails : FwCall → Bool) (ip domain reason : String) (hmgr : t.ipsetMgr.inRange) :
    ∃ t1 count blocked strike,
      t.RecordFailure now blockNow fails ip domain reason = some (t1, count, blocked) ∧
      strike = updateStrike now reason (resolveDomainCfg t.config domain)
        (t.fetchStrike now ip domain) ∧
      count = strike.StrikeCount ∧
      mapGet t1.strikes (strikeKey ip domain) = some strike ∧
      t1.GetStrikeCount ip domain = count ∧
      (blocked = true ↔ 3 ≤ count) ∧
      (3 ≤ count →
        (t.storeStrike ip domain strike).blockIP blockNow fails ip domain strike = some t1 ∧
        ∃ setName rest, t1.ipsetMgr.fw.calls = FwCall.add setName ip :: rest) ∧
      (count < 3 →
        t1 = t.storeStrike ip domain strike ∧
        t1.ipsetMgr.fw.calls = t.ipsetMgr.fw.calls ∧
        t1.db.blocked_ips = t.db.blocked_ips) := by
  have hRF : t.RecordFailure now blockNow fails ip domain reason =
      if (updateStrike now reason (resolveDomainCfg t.config domain)
          (t.fetchStrike now ip domain)).StrikeCount ≥ 3 then
        match (t.storeStrike ip domain (updateStrike now reason
            (resolveDomainCfg t.config domain) (t.fetchStrike now ip domain))).blockIP
            blockNow fails ip domain (updateStrike now reason
            (resolveDomainCfg t.config domain) (t.fetchStrike now ip domain)) with
        | none => none
        | some t2 => some (t2, (updateStrike now reason (resolveDomainCfg t.config domain)
            (t.fetchStrike now ip domain)).StrikeCount, true)
      else some (t.storeStrike ip domain (updateStrike now reason
            (resolveDomainCfg t.config domain) (t.fetchStrike now ip domain)),
          (updateStrike now reason (resolveDomainCfg t.config domain)
            (t.fetchStrike now ip domain)).StrikeCount, false) := rfl
  generalize updateStrike now reason (resolveDomainCfg t.config domain)
    (t.fetchStrike now ip domain) = s at hRF ⊢
  have hmgr1 : (t.storeStrike ip domain s).ipsetMgr.inRange := by
    simpa [Tracker.storeStrike, Tracker.saveStrike] using hmgr
  have hsaved : mapGet (t.storeStrike ip domain s).strikes (strikeKey ip domain) = some s := by
    have hst : (t.storeStrike ip domain s).strikes = mapSet t.strikes (strikeKey ip domain) s := by
      simp [Tracker.storeStrike, Tracker.saveStrike]
    rw [hst, mapGet_mapSet]
    simp
  obtain ⟨t2, setName, rest, hb, hcalls⟩ := blockIP_calls _ blockNow fails ip domain s hmgr1
  obtain ⟨t3, hb3, hstr3, _, _, _⟩ := blockIP_some _ blockNow fails ip domain s hmgr1
  have h23 : t3 = t2 := by
    rw [hb] at hb3
    cases hb3
    rfl
  subst h23
  by_cases hc : s.StrikeCount ≥ 3
  · refine ⟨t3, s.StrikeCount, true, s, ?_, rfl, rfl, ?_, ?_, ?_, ?_, ?_⟩
    · rw [hRF]
      simp only [hc, if_true, hb]
    · rw [hstr3]
      exact hsaved
    · unfold Tracker.GetStrikeCount
      rw [hstr3, hsaved]
    · simpa using hc
    · intro _
      exact ⟨hb, setName, rest, hcalls⟩
    · intro hlt
      omega
  · refine ⟨t.storeStrike ip domain s, s.StrikeCount, false, s, ?_, rfl, rfl, hsaved, ?_, ?_,
      ?_, ?_⟩
    · rw [hRF]
      simp only [hc, if_false]
    · unfold Tracker.GetStrikeCount
      rw [hsaved]
    · simpa using hc
    · intro hge
      exact absurd hge hc
    · intro _
      simp [Tracker.storeStrike, Tracker.saveStrike, DB.replaceStrike]

/-- Witness of C2: the third failure on a key that holds two strikes returns `(3, true)`
after a driver call, and the statement of C2 holds of that call. -/
theorem C2_blocked_iff_count_ge_three_witness :
    ((strikesOn "1.2.3.4" "example.com" 2).RecordFailure 100 101 noFault
        "1.2.3.4" "example.com" "hmac_failed").map (fun r => (r.2, r.1.ipsetMgr.fw.calls)) =
      some ((3, true), [FwCall.add "ukabu-temporary_0" "1.2.3.4",
        FwCall.size "ukabu-temporary_0"]) ∧
    ∃ t1 count blocked strike,
      (strikesOn "1.2.3.4" "example.com" 2).RecordFailure 100 101 noFault
        "1.2.3.4" "example.com" "hmac_failed" = some (t1, count, blocked) ∧
      strike = updateStrike 100 "hmac_failed"
        (resolveDomainCfg (strikesOn "1.2.3.4" "example.com" 2).config "example.com")
        ((strikesOn "1.2.3.4" "example.com" 2).fetchStrike 100 "1.2.3.4" "example.com") ∧
      count = strike.StrikeCount ∧
      mapGet t1.strikes (strikeKey "1.2.3.4" "example.com") = some strike ∧
      t1.GetStrikeCount "1.2.3.4" "example.com" = count ∧
      (blocked = true ↔ 3 ≤ count) ∧
      (3 ≤ count →
        ((strikesOn "1.2.3.4" "example.com" 2).storeStrike "1.2.3.4" "example.com"
          strike).blockIP 101 noFault "1.2.3.4" "example.com" strike = some t1 ∧
        ∃ setName rest, t1.ipsetMgr.fw.calls = FwCall.add setName "1.2.3.4" :: rest) ∧
      (count < 3 →
        t1 = (strikesOn "1.2.3.4" "example.com" 2).storeStrike "1.2.3.4" "example.com" strike ∧
        t1.ipsetMgr.fw.calls = (strikesOn "1.2.3.4" "example.com" 2).ipsetMgr.fw.calls ∧
        t1.db.blocked_ips = (strikesOn "1.2.3.4" "example.com" 2).db.blocked_ips) :=
  ⟨by decide,
   C2_blocked_iff_count_ge_three (strikesOn "1.2.3.4" "example.com" 2) 100 101 noFault
    "1.2.3.4" "example.com" "hmac_failed"
    (by simp [Manager.inRange, strikesOn, sampleTracker, sampleMgr])⟩

theorem updateStrike_excused (now : Time) (reason : String) (cfg : DomainConfig) (s : Strike)
    (h : shouldExcuse reason cfg s = true) :
    (updateStrike now reason cfg s).FirstTimeoutExcused = true ∧
    (updateStrike now reason cfg s).StrikeCount = s.StrikeCount ∧
    (updateStrike now reason cfg s).LastFailure = s.LastFailure := by
  unfold updateStrike
  by_cases hl : cfg.LockoutPeriod > 0 <;> simp [h, hl]

theorem updateStrike_counted (now : Time) (reason : String) (cfg : DomainConfig) (s : Strike)
    (h : shouldExcuse reason cfg s = false) :
    (updateStrike now reason cfg s).FirstTimeoutExcused = s.FirstTimeoutExcused ∧
    (updateStrike now reason cfg s).StrikeCount = wrapInt64 (s.StrikeCount + 1) ∧
    (updateStrike now reason cfg s).LastFailure = now := by
  unfold updateStrike
  by_cases hl : cfg.LockoutPeriod > 0 <;> simp [h, hl]

/-- C3: a call of `RecordFailure` is excused exactly when the reason is "timeout", the
resolved policy excuses the first timeout and the key's record (the stored one, or the one the
call creates with count 0 and both instants `now`) has not had a timeout excused.  An excused
call sets `FirstTimeoutExcused`, keeps `StrikeCount` and `LastFailure`, and returns the prior
count; any other call increments the counter, sets `LastFailure` to `now` and keeps the
flag. -/
theorem C3_excusal_rule (t : Tracker) (now blockNow : Time) (fails : FwCall → Bool)
    (ip domain reason : String) (hmgr : t.ipsetMgr.inRange) :
    ∃ t1 count blocked record,
      t.RecordFailure now blockNow fails ip domain reason = some (t1, count, blocked) ∧
      mapGet t1.strikes (strikeKey ip domain) = some record ∧
      (t.excuses now ip domain reason = true ↔
        (reason = "timeout" ∧ (resolveDomainCfg t.config domain).ExcuseFirstTimeout = true ∧
          (t.fetchStrike now ip domain).FirstTimeoutExcused = false)) ∧
      (t.excuses now ip domain reason = true →
        record.FirstTimeoutExcused = true ∧
        record.StrikeCount = (t.fetchStrike now ip domain).StrikeCount ∧
        record.LastFailure = (t.fetchStrike now ip domain).LastFailure ∧
        count = t.GetStrikeCount ip domain) ∧
      (t.excuses now ip domain reason = false →
        record.FirstTimeoutExcused = (t.fetchStrike now ip domain).FirstTimeoutExcused ∧
        record.StrikeCount = wrapInt64 ((t.fetchStrike now ip domain).StrikeCount + 1) ∧
        record.LastFailure = now ∧
        count = wrapInt64 (t.GetStrikeCount ip domain + 1)) ∧
      (mapGet t.strikes (strikeKey ip domain) = none →
        (t.fetchStrike now ip domain).StrikeCount = 0 ∧
        (t.fetchStrike now ip domain).LastFailure = now ∧
        (t.fetchStrike now ip domain).FirstFailure = now ∧
        (t.fetchStrike now ip domain).FirstTimeoutExcused = false) ∧
      (∀ s, mapGet t.strikes (strikeKey ip domain) = some s →
        t.fetchStrike now ip domain = s) := by
  obtain ⟨t1, h1, h2, _, _⟩ := RecordFailure_some t now blockNow fails ip domain reason hmgr
  refine ⟨t1, _, _, updateStrike now reason (resolveDomainCfg t.config domain)
    (t.fetchStrike now ip domain), h1, ?_, ?_, ?_, ?_, ?_, ?_⟩
  · rw [h2, mapGet_mapSet]
    simp
  · simp [Tracker.excuses, shouldExcuse, and_assoc]
  · intro hex
    obtain ⟨e1, e2, e3⟩ := updateStrike_excused now reason (resolveDomainCfg t.config domain)
      (t.fetchStrike now ip domain) hex
    exact ⟨e1, e2, e3, by rw [e2, fetchStrike_count]⟩
  · intro hex
    obtain ⟨e1, e2, e3⟩ := updateStrike_counted now reason (resolveDomainCfg t.config domain)
      (t.fetchStrike now ip domain) hex
    exact ⟨e1, e2, e3, by rw [e2, fetchStrike_count]⟩
  · intro hnone
    simp [Tracker.fetchStrike, hnone]
  · intro s hs
    simp [Tracker.fetchStrike, hs]

/-- Witness of C3: a first timeout on the sample tracker. -/
theorem C3_excusal_rule_witness :
    ∃ t1 blocked record,
      sampleTracker.RecordFailure 7 8 noFault "1.2.3.4" "example.com" "timeout"
        = some (t1, 0, blocked) ∧
      mapGet t1.strikes (strikeKey "1.2.3.4" "example.com") = some record ∧
      record.FirstTimeoutExcused = true ∧ record.StrikeCount = 0 ∧ record.LastFailure = 7 := by
  obtain ⟨t1, count, blocked, record, h1, h2, h3, h4, _, h6, _⟩ :=
    C3_excusal_rule sampleTracker 7 8 noFault "1.2.3.4" "example.com" "timeout"
      (by simp [Manager.inRange, sampleTracker, sampleMgr])
  have hfresh : mapGet sampleTracker.strikes (strikeKey "1.2.3.4" "example.com") = none := by
    simp [sampleTracker, mapGet]
  obtain ⟨f1, f2, _, f4⟩ := h6 hfresh
  have hex : sampleTracker.excuses 7 "1.2.3.4" "example.com" "timeout" = true := by
    rw [h3]
    refine ⟨rfl, ?_, f4⟩
    simp [resolveDomainCfg, Config.GetDomainConfig, sampleTracker, sampleConfig, mapGet]
  obtain ⟨g1, g2, g3, g4⟩ := h4 hex
  have hcount : count = 0 := by
    rw [g4]
    simp [Tracker.GetStrikeCount, hfresh]
  subst hcount
  exact ⟨t1, blocked, record, by rw [h1], h2, g1, by rw [g2, f1], by rw [g3, f2]⟩

theorem excused_flag_stays (K : String) (ops : List Op) (t : Tracker) (hwf : t.WF)
    (hkeep : Along (fun s op => op.keeps K s) t ops)
    (hflag : ∃ s, mapGet t.strikes K = some s ∧ s.FirstTimeoutExcused = true) :
    ∃ t1, t.run ops = some t1 ∧ t1.WF ∧ excusedCount K t ops = 0 ∧
      ∃ s1, mapGet t1.strikes K = some s1 ∧ s1.FirstTimeoutExcused = true := by
  induction ops generalizing t with
  | nil => exact ⟨t, rfl, hwf, rfl, hflag⟩
  | cons op ops ih =>
    obtain ⟨hp, hrest⟩ := hkeep
    obtain ⟨s, hs, hsf⟩ := hflag
    obtain ⟨t1, hstep, hwf1, _, hget⟩ := step_get t op K hwf hp
    have hno : op.excusedOn K t = false := by
      cases op with
      | failure now blockNow fails ip domain reason =>
        by_cases hK : strikeKey ip domain = K
        · simp [Op.excusedOn, hK, Tracker.excuses, shouldExcuse, Tracker.fetchStrike, hs, hsf]
        · simp [Op.excusedOn, hK]
      | success ip domain => rfl
      | cleanup now fails => rfl
    have hflag1 : ∃ s1, mapGet t1.strikes K = some s1 ∧ s1.FirstTimeoutExcused = true := by
      cases op with
      | failure now blockNow fails ip domain reason =>
        by_cases hK : strikeKey ip domain = K
        · have hex : shouldExcuse reason (resolveDomainCfg t.config domain)
              (t.fetchStrike now ip domain) = false := by
            simp [shouldExcuse, Tracker.fetchStrike, hK, hs, hsf]
          refine ⟨updateStrike now reason (resolveDomainCfg t.config domain)
            (t.fetchStrike now ip domain), by rw [hget]; simp only [hK, if_true], ?_⟩
          rw [(updateStrike_counted now reason _ _ hex).1]
          simp [Tracker.fetchStrike, hK, hs, hsf]
        · exact ⟨s, by rw [hget]; simp only [hK, if_false, hs], hsf⟩
      | success ip domain => exact ⟨s, by rw [hget, hs], hsf⟩
      | cleanup now fails => exact ⟨s, by rw [hget, hs], hsf⟩
    obtain ⟨t2, hr, hwf2, hc, hf2⟩ := ih t1 hwf1 (hrest t1 hstep) hflag1
    refine ⟨t2, ?_, hwf2, ?_, hf2⟩
    · simp [Tracker.run, hstep, hr]
    · simp [excusedCount, hno, hstep, hc]

/-- C4: over any run of calls that never deletes the record of key `K` (failures on `K` and
calls on other keys included), at most one call is an excused failure on `K`; and when the
record's `FirstTimeoutExcused` is true at the start, it is true at the end and no call of the
run is excused. -/
theorem C4_one_excusal_per_lifetime (K : String) (ops : List Op) (t : Tracker) (hwf : t.WF)
    (hkeep : Along (fun s op => op.keeps K s) t ops) :
    ∃ t1, t.run ops = some t1 ∧
      excusedCount K t ops ≤ 1 ∧
      ((∃ s, mapGet t.strikes K = some s ∧ s.FirstTimeoutExcused = true) →
        excusedCount K t ops = 0 ∧
        ∃ s1, mapGet t1.strikes K = some s1 ∧ s1.FirstTimeoutExcused = true) := by
  induction ops generalizing t with
  | nil => exact ⟨t, rfl, by simp [excusedCount], fun h => ⟨rfl, h⟩⟩
  | cons op ops ih =>
    obtain ⟨hp, hrest⟩ := hkeep
    obtain ⟨t1, hstep, hwf1, _, hget⟩ := step_get t op K hwf hp
    obtain ⟨t2, hr, hle, _⟩ := ih t1 hwf1 (hrest t1 hstep)
    have hrun : t.run (op :: ops) = some t2 := by simp [Tracker.run, hstep, hr]
    refine ⟨t2, hrun, ?_, ?_⟩
    · by_cases hex : op.excusedOn K t = true
      · have hflag1 : ∃ s1, mapGet t1.strikes K = some s1 ∧ s1.FirstTimeoutExcused = true := by
          cases op with
          | failure now blockNow fails ip domain reason =>
            simp only [Op.excusedOn, Bool.and_eq_true, decide_eq_true_eq, Tracker.excuses] at hex
            refine ⟨updateStrike now reason (resolveDomainCfg t.config domain)
              (t.fetchStrike now ip domain), by rw [hget]; simp only [hex.1, if_true], ?_⟩
            exact (updateStrike_excused now reason _ _ hex.2).1
          | success ip domain => simp [Op.excusedOn] at hex
          | cleanup now fails => simp [Op.excusedOn] at hex
        obtain ⟨_, _, _, hc, _⟩ := excused_flag_stays K ops t1 hwf1 (hrest t1 hstep) hflag1
        simp [excusedCount, hex, hstep, hc]
      · simp only [excusedCount, hex, hstep]
        simpa using hle
    · intro hflag
      obtain ⟨t3, hr3, _, hc, hf⟩ := excused_flag_stays K (op :: ops) t hwf ⟨hp, hrest⟩ hflag
      rw [hrun] at hr3
      cases hr3
      exact ⟨hc, hf⟩

/-- Witness of C4: two timeouts and a counted failure on one key of the sample tracker. -/
theorem C4_one_excusal_per_lifetime_witness :
    ∃ t1, sampleTracker.run
        [Op.failure 0 0 noFault "1.2.3.4" "example.com" "timeout",
         Op.failure 1 1 noFault "1.2.3.4" "example.com" "timeout",
         Op.failure 2 2 noFault "1.2.3.4" "example.com" "hmac_failed"] = some t1 ∧
      excusedCount (strikeKey "1.2.3.4" "example.com") sampleTracker
        [Op.failure 0 0 noFault "1.2.3.4" "example.com" "timeout",
         Op.failure 1 1 noFault "1.2.3.4" "example.com" "timeout",
         Op.failure 2 2 noFault "1.2.3.4" "example.com" "hmac_failed"] ≤ 1 := by
  obtain ⟨t1, h1, h2, _⟩ := C4_one_excusal_per_lifetime (strikeKey "1.2.3.4" "example.com")
    [Op.failure 0 0 noFault "1.2.3.4" "example.com" "timeout",
     Op.failure 1 1 noFault "1.2.3.4" "example.com" "timeout",
     Op.failure 2 2 noFault "1.2.3.4" "example.com" "hmac_failed"] sampleTracker
    (by simp [Tracker.WF, Manager.inRange, sampleTracker, sampleMgr])
    (by simp [Along, Op.keeps])
  exact ⟨t1, h1, h2⟩

theorem blockIP_spec (t : Tracker) (now : Time) (fails : FwCall → Bool) (ip domain : String)
    (s : Strike) (h : t.ipsetMgr.inRange) :
    ∃ t1 setName mgr1, t.blockIP now fails ip domain s = some t1 ∧
      ((t.config.GetDomainConfig domain).1.LockoutPeriod = 0 →
        setName = "ukabu-permanent" ∧ mgr1 = t.ipsetMgr) ∧
      ((t.config.GetDomainConfig domain).1.LockoutPeriod ≠ 0 →
        t.ipsetMgr.GetAvailableTemporarySet fails = some (mgr1, setName)) ∧
      t1.ipsetMgr.fw.calls = FwCall.add setName ip :: mgr1.fw.calls ∧
      t1.strikes = t.strikes ∧ t1.db.strikes = t.db.strikes ∧
      (fails (FwCall.add setName ip) = false →
        ip ∈ t1.ipsetMgr.fw.sets setName ∧
        t1.db.blocked_ips =
          { ip := ip, domain := domain, blocked_at := now,
            lockout_expires :=
              if (t.config.GetDomainConfig domain).1.LockoutPeriod = 0 then none
              else some (addMinutes now (t.config.GetDomainConfig domain).1.LockoutPeriod),
            reason := "3_strikes", ipset_name := setName } ::
            t.db.blocked_ips.filter (fun r => !(r.ip == ip))) ∧
      (fails (FwCall.add setName ip) = true →
        t1.db = t.db ∧ t1.ipsetMgr.fw.sets = mgr1.fw.sets) := by
  obtain ⟨t1, hb, _⟩ := blockIP_some t now fails ip domain s h
  by_cases h0 : (t.config.GetDomainConfig domain).1.LockoutPeriod = 0
  · refine ⟨t1, "ukabu-permanent", t.ipsetMgr, hb, ?_⟩
    unfold Tracker.blockIP at hb
    by_cases ha : fails (FwCall.add "ukabu-permanent" ip) = true
    · simp only [h0, if_true, Manager.AddIP, FirewallManager.AddIPToSet, ha,
        Option.some.injEq] at hb
      subst hb
      simp [h0, ha]
    · simp only [h0, if_true, Manager.AddIP, FirewallManager.AddIPToSet, ha,
        Option.some.injEq, Bool.false_eq_true, if_false] at hb
      subst hb
      simp [h0, ha, DB.replaceBlocked]
  · obtain ⟨m1, name, hg, _, _⟩ := GetAvailableTemporarySet_inRange t.ipsetMgr fails h
    refine ⟨t1, name, m1, hb, ?_⟩
    unfold Tracker.blockIP at hb
    by_cases ha : fails (FwCall.add name ip) = true
    · simp only [h0, if_false, hg, Manager.AddIP, FirewallManager.AddIPToSet, ha, if_true,
        Option.some.injEq] at hb
      subst hb
      simp [h0, ha, hg]
    · simp only [h0, if_false, hg, Manager.AddIP, FirewallManager.AddIPToSet, ha,
        Option.some.injEq, Bool.false_eq_true] at hb
      subst hb
      simp [h0, ha, hg, DB.replaceBlocked]

/-- C5: for a domain present in the configuration, when the returned strike count reaches
3 the IP is added to "ukabu-permanent" if the domain's `LockoutPeriod` is 0 and otherwise to
the set `GetAvailableTemporarySet` returns; when that add succeeds the IP is a member of the
set and `blocked_ips` holds one row for the IP, with the set's name, and with no
`lockout_expires` for period 0 and `blockNow + LockoutPeriod` minutes otherwise, `blockNow`
being the instant `blockIP` reads. -/
theorem C5_block_set_and_row (t : Tracker) (now blockNow : Time) (fails : FwCall → Bool)
    (ip domain reason : String) (cfg : DomainConfig) (hmgr : t.ipsetMgr.inRange)
    (hdom : mapGet t.config.Domains domain = some cfg) :
    ∃ t1 count blocked,
      t.RecordFailure now blockNow fails ip domain reason = some (t1, count, blocked) ∧
      (3 ≤ count →
        ∃ setName mgr1,
          (cfg.LockoutPeriod = 0 → setName = "ukabu-permanent" ∧ mgr1 = t.ipsetMgr) ∧
          (cfg.LockoutPeriod ≠ 0 →
            t.ipsetMgr.GetAvailableTemporarySet fails = some (mgr1, setName)) ∧
          t1.ipsetMgr.fw.calls = FwCall.add setName ip :: mgr1.fw.calls ∧
          (fails (FwCall.add setName ip) = false →
            ip ∈ t1.ipsetMgr.fw.sets setName ∧
            t1.db.blocked_ips =
              { ip := ip, domain := domain, blocked_at := blockNow,
                lockout_expires :=
                  if cfg.LockoutPeriod = 0 then none
                  else some (addMinutes blockNow cfg.LockoutPeriod),
                reason := "3_strikes", ipset_name := setName } ::
                t.db.blocked_ips.filter (fun r => !(r.ip == ip)))) := by
  have hcfg : ((t.storeStrike ip domain (updateStrike now reason
      (resolveDomainCfg t.config domain) (t.fetchStrike now ip domain))).config.GetDomainConfig
      domain).1 = cfg := by
    simp [Tracker.storeStrike, Tracker.saveStrike, Config.GetDomainConfig, hdom]
  obtain ⟨t2, setName, mgr1, hb, hperm, htemp, hcalls, _, _, hrow, _⟩ :=
    blockIP_spec (t.storeStrike ip domain (updateStrike now reason
      (resolveDomainCfg t.config domain) (t.fetchStrike now ip domain))) blockNow fails ip
      domain (updateStrike now reason (resolveDomainCfg t.config domain)
      (t.fetchStrike now ip domain))
      (by simpa [Tracker.storeStrike, Tracker.saveStrike] using hmgr)
  by_cases hc : (updateStrike now reason (resolveDomainCfg t.config domain)
      (t.fetchStrike now ip domain)).StrikeCount ≥ 3
  · refine ⟨t2, (updateStrike now reason (resolveDomainCfg t.config domain)
      (t.fetchStrike now ip domain)).StrikeCount, true, ?_, ?_⟩
    · simp only [Tracker.RecordFailure, hc, if_true, hb]
    · intro _
      rw [hcfg] at hperm htemp hrow
      refine ⟨setName, mgr1, ?_, ?_, hcalls, ?_⟩
      · simpa [Tracker.storeStrike, Tracker.saveStrike] using hperm
      · simpa [Tracker.storeStrike, Tracker.saveStrike] using htemp
      · intro hadd
        simpa [Tracker.storeStrike, Tracker.saveStrike, DB.replaceStrike] using hrow hadd
  · refine ⟨t.storeStrike ip domain (updateStrike now reason
      (resolveDomainCfg t.config domain) (t.fetchStrike now ip domain)),
      (updateStrike now reason (resolveDomainCfg t.config domain)
      (t.fetchStrike now ip domain)).StrikeCount, false, ?_, ?_⟩
    · simp only [Tracker.RecordFailure, hc, if_false]
    · intro h3
      exact absurd h3 hc

/-- Witness of C5: the third strike on example.com (30 minutes) in the sample state. -/
theorem C5_block_set_and_row_witness :
    ∃ t1, (strikesOn "1.2.3.4" "example.com" 2).RecordFailure 100 101 noFault
        "1.2.3.4" "example.com" "hmac_failed" = some (t1, 3, true) ∧
      "1.2.3.4" ∈ t1.ipsetMgr.fw.sets "ukabu-temporary_0" ∧
      t1.db.blocked_ips =
        [{ ip := "1.2.3.4", domain := "example.com", blocked_at := 101,
           lockout_expires := some (addMinutes 101 30), reason := "3_strikes",
           ipset_name := "ukabu-temporary_0" }] := by
  obtain ⟨t1, count, blocked, hrf, h⟩ :=
    C5_block_set_and_row (strikesOn "1.2.3.4" "example.com" 2) 100 101 noFault
      "1.2.3.4" "example.com" "hmac_failed" { LockoutPeriod := 30, ExcuseFirstTimeout := true }
      (by simp [Manager.inRange, strikesOn, sampleTracker, sampleMgr]) (by decide)
  have hev : ((strikesOn "1.2.3.4" "example.com" 2).RecordFailure 100 101 noFault
      "1.2.3.4" "example.com" "hmac_failed").map (fun r => r.2) = some (3, true) := by decide
  rw [hrf] at hev
  simp only [Option.map_some', Option.some.injEq, Prod.mk.injEq] at hev
  obtain ⟨hcount, hblocked⟩ := hev
  subst hcount hblocked
  obtain ⟨setName, mgr1, _, htemp, _, hadd⟩ := h (by norm_num)
  have hg := htemp (by decide)
  have hname : ((strikesOn "1.2.3.4" "example.com" 2).ipsetMgr.GetAvailableTemporarySet
      noFault).map (fun r => r.2) = some "ukabu-temporary_0" := by decide
  rw [hg] at hname
  simp only [Option.map_some', Option.some.injEq] at hname
  subst hname
  obtain ⟨hmem, hrows⟩ := hadd rfl
  refine ⟨t1, hrf, hmem, ?_⟩
  rw [hrows]
  decide

/-- C6 (what the code does): with a 30 minute default and no entry for the domain,
`RecordFailure` resolves a 30 minute policy, yet the third strike puts the IP into
"ukabu-permanent", leaves "ukabu-temporary_0" empty and records a row without
`lockout_expires`. -/
theorem C6_unknown_domain_blocked_permanently :
    mapGet sampleConfig.Domains "unknown.example" = none ∧
    (resolveDomainCfg sampleConfig "unknown.example").LockoutPeriod = 30 ∧
    ((sampleTracker.run
        [Op.failure 10 10 noFault "1.2.3.4" "unknown.example" "hmac_failed",
         Op.failure 20 20 noFault "1.2.3.4" "unknown.example" "hmac_failed"]).bind
      (fun t => t.RecordFailure 100 101 noFault "1.2.3.4" "unknown.example" "hmac_failed")).map
      (fun r => (r.2.1, r.2.2, r.1.db.blocked_ips, r.1.ipsetMgr.fw.sets "ukabu-permanent",
        r.1.ipsetMgr.fw.sets "ukabu-temporary_0", r.1.ipsetMgr.fw.calls)) =
      some (3, true,
        [{ ip := "1.2.3.4", domain := "unknown.example", blocked_at := 101,
           lockout_expires := none, reason := "3_strikes", ipset_name := "ukabu-permanent" }],
        ["1.2.3.4"], [], [FwCall.add "ukabu-permanent" "1.2.3.4"]) :=
  ⟨rfl, rfl, rfl⟩

/-- C7 (counterexample): the third strike whose add to "ukabu-temporary_0" fails records no
row and leaves the set empty, yet `RecordFailure` returns `blocked = true`. -/
theorem C7_add_failure_still_reports_blocked :
    ((strikesOn "1.2.3.4" "example.com" 2).RecordFailure 100 101
        (fun c => decide (c = FwCall.add "ukabu-temporary_0" "1.2.3.4"))
        "1.2.3.4" "example.com" "hmac_failed").map
      (fun r => (r.2.1, r.2.2, r.1.db.blocked_ips, r.1.ipsetMgr.fw.sets "ukabu-temporary_0",
        r.1.ipsetMgr.fw.calls)) =
      some (3, true, [], [],
        [FwCall.add "ukabu-temporary_0" "1.2.3.4", FwCall.size "ukabu-temporary_0"]) := by
  rfl

/-- C7 (amended): when the returned strike count is 3 or more, `RecordFailure` returns
`blocked = true` and has asked the driver to add the IP to the chosen set; if that add fails,
`blocked_ips` and the kernel sets are left as they were and the record keeps its elevated
count. -/
theorem C7_add_failure_keeps_count_no_row (t : Tracker) (now blockNow : Time)
    (fails : FwCall → Bool) (ip domain reason : String) (hmgr : t.ipsetMgr.inRange) :
    ∃ t1 count blocked,
      t.RecordFailure now blockNow fails ip domain reason = some (t1, count, blocked) ∧
      (3 ≤ count →
        blocked = true ∧
        ∃ setName rest, t1.ipsetMgr.fw.calls = FwCall.add setName ip :: rest ∧
          (fails (FwCall.add setName ip) = true →
            t1.db.blocked_ips = t.db.blocked_ips ∧
            t1.ipsetMgr.fw.sets = t.ipsetMgr.fw.sets ∧
            t1.GetStrikeCount ip domain = count)) := by
  have hmgr1 : (t.storeStrike ip domain (updateStrike now reason
      (resolveDomainCfg t.config domain) (t.fetchStrike now ip domain))).ipsetMgr.inRange := by
    simpa [Tracker.storeStrike, Tracker.saveStrike] using hmgr
  obtain ⟨t2, setName, mgr1, hb, hperm, htemp, hcalls, hstr, _, _, hfail⟩ :=
    blockIP_spec (t.storeStrike ip domain (updateStrike now reason
      (resolveDomainCfg t.config domain) (t.fetchStrike now ip domain))) blockNow fails ip
      domain (updateStrike now reason (resolveDomainCfg t.config domain)
      (t.fetchStrike now ip domain)) hmgr1
  by_cases hc : (updateStrike now reason (resolveDomainCfg t.config domain)
      (t.fetchStrike now ip domain)).StrikeCount ≥ 3
  · refine ⟨t2, (updateStrike now reason (resolveDomainCfg t.config domain)
      (t.fetchStrike now ip domain)).StrikeCount, true, ?_, ?_⟩
    · simp only [Tracker.RecordFailure, hc, if_true, hb]
    · intro _
      refine ⟨rfl, setName, mgr1.fw.calls, hcalls, ?_⟩
      intro haddf
      obtain ⟨hdb, hsets⟩ := hfail haddf
      refine ⟨?_, ?_, ?_⟩
      · rw [hdb]
        simp [Tracker.storeStrike, Tracker.saveStrike, DB.replaceStrike]
      · rw [hsets]
        by_cases h0 : ((t.storeStrike ip domain (updateStrike now reason
            (resolveDomainCfg t.config domain) (t.fetchStrike now ip
            domain))).config.GetDomainConfig domain).1.LockoutPeriod = 0
        · rw [(hperm h0).2]
          simp [Tracker.storeStrike, Tracker.saveStrike]
        · obtain ⟨m2, name2, hg, _, hs2⟩ := GetAvailableTemporarySet_inRange _ fails hmgr1
          have := htemp h0
          rw [hg] at this
          cases this
          rw [hs2]
          simp [Tracker.storeStrike, Tracker.saveStrike]
      · unfold Tracker.GetStrikeCount
        rw [hstr]
        simp [Tracker.storeStrike, Tracker.saveStrike, mapGet_mapSet]
  · refine ⟨t.storeStrike ip domain (updateStrike now reason
      (resolveDomainCfg t.config domain) (t.fetchStrike now ip domain)),
      (updateStrike now reason (resolveDomainCfg t.config domain)
      (t.fetchStrike now ip domain)).StrikeCount, false, ?_, ?_⟩
    · simp only [Tracker.RecordFailure, hc, if_false]
    · intro h3
      exact absurd h3 hc

/-- Witness of C7 (amended): every add fails on the third strike of the sample state. -/
theorem C7_add_failure_keeps_count_no_row_witness :
    ∃ t1, (strikesOn "1.2.3.4" "example.com" 2).RecordFailure 100 101
        (fun c => match c with | FwCall.add _ _ => true | _ => false)
        "1.2.3.4" "example.com" "hmac_failed" = some (t1, 3, true) ∧
      t1.db.blocked_ips = [] ∧ t1.GetStrikeCount "1.2.3.4" "example.com" = 3 := by
  obtain ⟨t1, count, blocked, hrf, h⟩ :=
    C7_add_failure_keeps_count_no_row (strikesOn "1.2.3.4" "example.com" 2) 100 101
      (fun c => match c with | FwCall.add _ _ => true | _ => false)
      "1.2.3.4" "example.com" "hmac_failed"
      (by simp [Manager.inRange, strikesOn, sampleTracker, sampleMgr])
  have hev : ((strikesOn "1.2.3.4" "example.com" 2).RecordFailure 100 101
      (fun c => match c with | FwCall.add _ _ => true | _ => false)
      "1.2.3.4" "example.com" "hmac_failed").map (fun r => r.2.1) = some 3 := by decide
  rw [hrf] at hev
  simp only [Option.map_some', Option.some.injEq] at hev
  subst hev
  obtain ⟨hb, setName, rest, _, hfail⟩ := h (by norm_num)
  subst hb
  obtain ⟨hrows, _, hcount⟩ := hfail rfl
  exact ⟨t1, hrf, hrows, hcount⟩

theorem RecordFailure_count (t : Tracker) (now blockNow : Time) (fails : FwCall → Bool)
    (ip domain reason : String) (h : t.ipsetMgr.inRange) :
    ∃ t1 count, t.RecordFailure now blockNow fails ip domain reason =
        some (t1, count, decide (count ≥ 3)) ∧
      count = (if t.excuses now ip domain reason then t.GetStrikeCount ip domain
               else wrapInt64 (t.GetStrikeCount ip domain + 1)) ∧
      t1.GetStrikeCount ip domain = count ∧ t1.ipsetMgr.inRange ∧ t1.config = t.config := by
  obtain ⟨t1, h1, h2, h3, h4⟩ := RecordFailure_some t now blockNow fails ip domain reason h
  refine ⟨t1, _, h1, ?_, ?_, h4, h3⟩
  · rw [updateStrike_count, fetchStrike_count]
    rfl
  · unfold Tracker.GetStrikeCount
    rw [h2, mapGet_mapSet]
    simp

theorem RecordSuccess_get (t : Tracker) (ip domain : String) (K : String) :
    mapGet (t.RecordSuccess ip domain).strikes K =
      if strikeKey ip domain = K then none else mapGet t.strikes K := by
  unfold Tracker.RecordSuccess
  cases hg : mapGet t.strikes (strikeKey ip domain) with
  | none =>
    by_cases hK : strikeKey ip domain = K
    · subst hK
      simp [hg]
    · simp [hK]
  | some s => simp [mapGet_mapDelete]

theorem RecordSuccess_absent (u : Tracker) (ip domain : String)
    (h : mapGet u.strikes (strikeKey ip domain) = none) : u.RecordSuccess ip domain = u := by
  unfold Tracker.RecordSuccess
  rw [h]

/-- C8 (counterexample): a tracker started at instant 100 on a store that holds a strike row
for ("1.2.3.4", "example.com") with `expires_at` 50 has no record for the key in its
index, and `RecordSuccess` on that key leaves the row in table `strikes`, whereas a key
never seen has no row. -/
theorem C8_unloaded_row_survives_success :
    (NewTracker staleStore sampleConfig sampleMgr 100).strikes = [] ∧
    ((NewTracker staleStore sampleConfig sampleMgr 100).RecordSuccess
        "1.2.3.4" "example.com").db.strikes.map
          (fun r => (r.IP, r.Domain, r.StrikeCount, r.FirstTimeoutExcused)) =
      [("1.2.3.4", "example.com", 2, true)] ∧
    (NewTracker staleStore sampleConfig sampleMgr 100).RecordSuccess "1.2.3.4" "example.com" =
      NewTracker staleStore sampleConfig sampleMgr 100 ∧
    (sampleTracker.RecordSuccess "1.2.3.4" "example.com").db.strikes = [] := by
  refine ⟨by decide, by decide, rfl, by decide⟩

/-- C8 (amended): after `RecordSuccess(ip, domain)` the key has no record and
`GetStrikeCount` is 0; a second `RecordSuccess` changes nothing; the next `RecordFailure`
returns what it returns on any state of the same configuration in which the key has no
record, namely count 0 for an excusable timeout and count 1 otherwise, not blocked; after two
failures, a success and two more failures the last response is not blocked with count 2 less
the number of excused calls among the last two, so `(2, false)` when neither is excused.
When the index held a record for the key, table `strikes` loses exactly the rows of
`(ip, domain)` and holds none afterwards; when it held none, the call changes nothing, the
table included. -/
theorem C8_success_resets_key (t : Tracker) (ip domain : String)
    (n1 n2 n3 n4 b1 b2 b3 b4 : Time) (f1 f2 f3 f4 : FwCall → Bool) (r1 r2 r3 r4 : String)
    (hmgr : t.ipsetMgr.inRange) :
    (t.RecordSuccess ip domain).GetStrikeCount ip domain = 0 ∧
    mapGet (t.RecordSuccess ip domain).strikes (strikeKey ip domain) = none ∧
    (t.RecordSuccess ip domain).RecordSuccess ip domain = t.RecordSuccess ip domain ∧
    (∃ u, (t.RecordSuccess ip domain).RecordFailure n3 b3 f3 ip domain r3 =
      some (u, (if r3 = "timeout" ∧ (resolveDomainCfg t.config domain).ExcuseFirstTimeout = true
                then 0 else 1), false)) ∧
    (∀ fresh : Tracker, fresh.config = t.config → fresh.ipsetMgr.inRange →
      mapGet fresh.strikes (strikeKey ip domain) = none →
      (fresh.RecordFailure n3 b3 f3 ip domain r3).map (fun r => r.2) =
        ((t.RecordSuccess ip domain).RecordFailure n3 b3 f3 ip domain r3).map (fun r => r.2)) ∧
    (∃ t1 c1 k1 t2 c2 k2 t4 c3 t5 c4,
      t.RecordFailure n1 b1 f1 ip domain r1 = some (t1, c1, k1) ∧
      t1.RecordFailure n2 b2 f2 ip domain r2 = some (t2, c2, k2) ∧
      (t2.RecordSuccess ip domain).RecordFailure n3 b3 f3 ip domain r3 = some (t4, c3, false) ∧
      t4.RecordFailure n4 b4 f4 ip domain r4 = some (t5, c4, false) ∧
      c4 = (if (t2.RecordSuccess ip domain).excuses n3 ip domain r3 then 0 else 1) +
           (if t4.excuses n4 ip domain r4 then 0 else 1) ∧
      ((t2.RecordSuccess ip domain).excuses n3 ip domain r3 = false →
        t4.excuses n4 ip domain r4 = false → c4 = 2) ∧
      (t2.RecordSuccess ip domain).db.strikes =
        t2.db.strikes.filter (fun r => !(r.IP == ip && r.Domain == domain))) ∧
    (mapGet t.strikes (strikeKey ip domain) ≠ none →
      (t.RecordSuccess ip domain).db.strikes =
        t.db.strikes.filter (fun r => !(r.IP == ip && r.Domain == domain)) ∧
      ∀ r, r ∈ (t.RecordSuccess ip domain).db.strikes → ¬ (r.IP = ip ∧ r.Domain = domain)) ∧
    (mapGet t.strikes (strikeKey ip domain) = none → t.RecordSuccess ip domain = t) := by
  have hw1 : wrapInt64 (0 + 1) = 1 := by decide
  have hw2 : wrapInt64 (1 + 1) = 2 := by decide
  have hw1' : wrapInt64 1 = 1 := by decide
  have hw2' : wrapInt64 2 = 2 := by decide
  have hcleared : ∀ u : Tracker, (u.RecordSuccess ip domain).GetStrikeCount ip domain = 0 := by
    intro u
    unfold Tracker.GetStrikeCount
    rw [RecordSuccess_get]
    simp
  have hmgrS : ∀ u : Tracker, u.ipsetMgr.inRange → (u.RecordSuccess ip domain).ipsetMgr.inRange := by
    intro u hu
    unfold Tracker.RecordSuccess
    cases mapGet u.strikes (strikeKey ip domain) <;> exact hu
  have hcfgS : ∀ u : Tracker, (u.RecordSuccess ip domain).config = u.config := by
    intro u
    unfold Tracker.RecordSuccess
    cases mapGet u.strikes (strikeKey ip domain) <;> rfl
  have hrows : ∀ u : Tracker, mapGet u.strikes (strikeKey ip domain) ≠ none →
      (u.RecordSuccess ip domain).db.strikes =
        u.db.strikes.filter (fun r => !(r.IP == ip && r.Domain == domain)) := by
    intro u hu
    unfold Tracker.RecordSuccess
    cases hg : mapGet u.strikes (strikeKey ip domain) with
    | none => exact absurd hg hu
    | some s => rfl
  have hfreshRF : ∀ u : Tracker, u.config = t.config → u.ipsetMgr.inRange →
      mapGet u.strikes (strikeKey ip domain) = none →
      ∃ u1, u.RecordFailure n3 b3 f3 ip domain r3 =
        some (u1, (if r3 = "timeout" ∧
          (resolveDomainCfg t.config domain).ExcuseFirstTimeout = true then 0 else 1), false) := by
    intro u hcfg hu hnone
    obtain ⟨u1, c, h1, h2, _, _, _⟩ := RecordFailure_count u n3 b3 f3 ip domain r3 hu
    have hz : u.GetStrikeCount ip domain = 0 := by
      unfold Tracker.GetStrikeCount
      rw [hnone]
    have hex : u.excuses n3 ip domain r3 =
        decide (r3 = "timeout" ∧ (resolveDomainCfg t.config domain).ExcuseFirstTimeout = true) := by
      by_cases hr : r3 = "timeout" <;>
        cases hE : (resolveDomainCfg t.config domain).ExcuseFirstTimeout <;>
        simp [Tracker.excuses, shouldExcuse, Tracker.fetchStrike, hnone, hcfg, hr, hE]
    rw [hz, hw1, hex] at h2
    refine ⟨u1, ?_⟩
    rw [h1]
    by_cases hcond : r3 = "timeout" ∧ (resolveDomainCfg t.config domain).ExcuseFirstTimeout = true
    · simp only [hcond, and_self, decide_True, if_true] at h2 ⊢
      subst h2
      rfl
    · simp only [hcond, decide_False, Bool.false_eq_true, if_false] at h2 ⊢
      subst h2
      rfl
  refine ⟨hcleared t, ?_, ?_, ?_, ?_, ?_, ?_, ?_⟩
  · rw [RecordSuccess_get]
    simp
  · apply RecordSuccess_absent
    rw [RecordSuccess_get]
    simp
  · exact hfreshRF _ (hcfgS t) (hmgrS t hmgr) (by rw [RecordSuccess_get]; simp)
  · intro fresh hcfg hin hnone
    obtain ⟨u1, hu1⟩ := hfreshRF fresh hcfg hin hnone
    obtain ⟨u2, hu2⟩ := hfreshRF _ (hcfgS t) (hmgrS t hmgr)
      (by rw [RecordSuccess_get]; simp)
    rw [hu1, hu2]
    rfl
  · obtain ⟨t1, c1, h1, _, _, hm1, _⟩ := RecordFailure_count t n1 b1 f1 ip domain r1 hmgr
    obtain ⟨t2, c2, h2, _, _, hm2, _⟩ := RecordFailure_count t1 n2 b2 f2 ip domain r2 hm1
    obtain ⟨t2', ht2', hs2, _⟩ := RecordFailure_some t1 n2 b2 f2 ip domain r2 hm1
    have ht2 : t2' = t2 := by
      rw [h2] at ht2'
      cases ht2'
      rfl
    subst ht2
    have hkey2 : mapGet t2'.strikes (strikeKey ip domain) ≠ none := by
      rw [hs2, mapGet_mapSet]
      simp
    obtain ⟨t4, c3, h3, hc3, hg3, hm3, _⟩ :=
      RecordFailure_count (t2'.RecordSuccess ip domain) n3 b3 f3 ip domain r3 (hmgrS t2' hm2)
    obtain ⟨t5, c4, h4, hc4, _, _, _⟩ := RecordFailure_count t4 n4 b4 f4 ip domain r4 hm3
    rw [hcleared t2', hw1] at hc3
    rw [hg3] at hc4
    have hc3' : c3 = 0 ∨ c3 = 1 := by
      rw [hc3]; split_ifs <;> simp
    have hc4' : c4 = (if (t2'.RecordSuccess ip domain).excuses n3 ip domain r3 then 0 else 1) +
        (if t4.excuses n4 ip domain r4 then 0 else 1) := by
      rw [hc4, hc3]
      by_cases e3 : (t2'.RecordSuccess ip domain).excuses n3 ip domain r3 = true <;>
        by_cases e4 : t4.excuses n4 ip domain r4 = true <;>
        simp [e3, e4, hw1, hw2, hw1', hw2']
    have hlt3 : decide (c3 ≥ 3) = false := by
      rcases hc3' with h | h <;> simp [h]
    have hlt4 : decide (c4 ≥ 3) = false := by
      rw [hc4']
      split_ifs <;> simp
    rw [hlt3] at h3
    rw [hlt4] at h4
    refine ⟨t1, c1, _, t2', c2, _, t4, c3, t5, c4, h1, h2, h3, h4, hc4', ?_, hrows t2' hkey2⟩
    intro e3 e4
    rw [hc4', e3, e4]
    simp
  · intro hsome
    refine ⟨hrows t hsome, ?_⟩
    intro r hr hpk
    rw [hrows t hsome, List.mem_filter] at hr
    simp [hpk.1, hpk.2] at hr
  · exact RecordSuccess_absent t ip domain

/-- Witness of C8 (amended): on the sweeper's sample state, whose index and table both hold
a record for ("1.2.3.4", "example.com"), `RecordSuccess` leaves the count at 0 and only the
other key's row in the table, and four counted failures around a success end with
`(2, false)`. -/
theorem C8_success_resets_key_witness :
    (sweepSample.RecordSuccess "1.2.3.4" "example.com").GetStrikeCount
      "1.2.3.4" "example.com" = 0 ∧
    (sweepSample.RecordSuccess "1.2.3.4" "example.com").db.strikes.map
      (fun r => (r.IP, r.Domain)) = [("5.6.7.8", "perm.example")] ∧
    ∃ t1 c1 k1 t2 c2 k2 t4 c3 t5,
      sweepSample.RecordFailure 1 1 noFault "1.2.3.4" "example.com" "hmac_failed"
        = some (t1, c1, k1) ∧
      t1.RecordFailure 2 2 noFault "1.2.3.4" "example.com" "hmac_failed" = some (t2, c2, k2) ∧
      (t2.RecordSuccess "1.2.3.4" "example.com").RecordFailure 3 3 noFault
        "1.2.3.4" "example.com" "hmac_failed" = some (t4, c3, false) ∧
      t4.RecordFailure 4 4 noFault "1.2.3.4" "example.com" "hmac_failed"
        = some (t5, 2, false) := by
  obtain ⟨h0, _, _, _, _, ⟨t1, c1, k1, t2, c2, k2, t4, c3, t5, c4, h1, h2, h3, h4, _, h6, _⟩,
      hrow, _⟩ :=
    C8_success_resets_key sweepSample "1.2.3.4" "example.com" 1 2 3 4 1 2 3 4
      noFault noFault noFault noFault "hmac_failed" "hmac_failed" "hmac_failed" "hmac_failed"
      (by simp [Manager.inRange, sweepSample])
  have hc4 : c4 = 2 := h6 (by simp [Tracker.excuses, shouldExcuse])
    (by simp [Tracker.excuses, shouldExcuse])
  subst hc4
  refine ⟨h0, ?_, t1, c1, k1, t2, c2, k2, t4, c3, t5, h1, h2, h3, h4⟩
  rw [(hrow (by decide)).1]
  decide

/-- C9: `RecordSuccess(ip, domain)` leaves the blocklist manager as it was (no driver call is
issued and every kernel set keeps its members), leaves `blocked_ips` and the configuration
unchanged, leaves the record of every other key unchanged, and removes from table `strikes` at
most the row of `(ip, domain)`. -/
theorem C9_success_touches_only_strike (t : Tracker) (ip domain : String) :
    (t.RecordSuccess ip domain).ipsetMgr.fw.calls = t.ipsetMgr.fw.calls ∧
    (t.RecordSuccess ip domain).ipsetMgr.fw.sets = t.ipsetMgr.fw.sets ∧
    (t.RecordSuccess ip domain).ipsetMgr.temporarySets = t.ipsetMgr.temporarySets ∧
    (t.RecordSuccess ip domain).ipsetMgr.nextTempSet = t.ipsetMgr.nextTempSet ∧
    (∀ setName x, x ∈ t.ipsetMgr.fw.sets setName →
      x ∈ (t.RecordSuccess ip domain).ipsetMgr.fw.sets setName) ∧
    (t.RecordSuccess ip domain).db.blocked_ips = t.db.blocked_ips ∧
    (t.RecordSuccess ip domain).config = t.config ∧
    (∀ K, K ≠ strikeKey ip domain →
      mapGet (t.RecordSuccess ip domain).strikes K = mapGet t.strikes K) ∧
    (∀ r, r ∈ (t.RecordSuccess ip domain).db.strikes → r ∈ t.db.strikes) ∧
    (∀ r, r ∈ t.db.strikes → ¬(r.IP = ip ∧ r.Domain = domain) →
      r ∈ (t.RecordSuccess ip domain).db.strikes) := by
  have hget := RecordSuccess_get t ip domain
  unfold Tracker.RecordSuccess at hget ⊢
  cases hg : mapGet t.strikes (strikeKey ip domain) with
  | none =>
    rw [hg] at hget
    exact ⟨rfl, rfl, rfl, rfl, fun _ _ h => h, rfl, rfl, fun _ _ => rfl, fun _ h => h,
      fun _ h _ => h⟩
  | some s =>
    rw [hg] at hget
    refine ⟨rfl, rfl, rfl, rfl, fun _ _ h => h, rfl, rfl, ?_, ?_, ?_⟩
    · intro K hK
      rw [hget K]
      simp [Ne.symm hK]
    · intro r hr
      simp only [DB.deleteStrike, List.mem_filter] at hr
      exact hr.1
    · intro r hr hne
      simp only [DB.deleteStrike, List.mem_filter]
      refine ⟨hr, ?_⟩
      by_cases hi : r.IP = ip
      · have hd : ¬ r.Domain = domain := fun hd => hne ⟨hi, hd⟩
        simp [hi, hd]
      · simp [hi]

theorem addMinutes_exact (now : Time) (p : Int) (h0 : 0 ≤ p) (h1 : p ≤ 153722867) :
    addMinutes now p = now + p * 60000000000 := by
  unfold addMinutes Minute
  rw [wrapInt64_of_range _ (by omega) (by unfold maxInt64; omega)]

theorem updateStrike_expiry (now : Time) (reason : String) (cfg : DomainConfig) (s : Strike) :
    (updateStrike now reason cfg s).ExpiresAt =
      if cfg.LockoutPeriod > 0 then some (addMinutes now cfg.LockoutPeriod) else s.ExpiresAt := by
  unfold updateStrike
  by_cases he : shouldExcuse reason cfg s = true <;>
    by_cases hl : cfg.LockoutPeriod > 0 <;> simp [he, hl]

/-- C10: after any call of `RecordFailure` at instant `now`, excused or not, the key's record
has `ExpiresAt = now + LockoutPeriod` minutes when the resolved policy's `LockoutPeriod` is
positive, and otherwise the `ExpiresAt` it had before (none for a record the call creates);
the sum is exact for periods up to 153722867 minutes, where the `int64` duration wraps. -/
theorem C10_expiry_recomputed (t : Tracker) (now blockNow : Time) (fails : FwCall → Bool)
    (ip domain reason : String) (hmgr : t.ipsetMgr.inRange) :
    ∃ t1 count blocked record,
      t.RecordFailure now blockNow fails ip domain reason = some (t1, count, blocked) ∧
      mapGet t1.strikes (strikeKey ip domain) = some record ∧
      (0 < (resolveDomainCfg t.config domain).LockoutPeriod →
        record.ExpiresAt = some (addMinutes now (resolveDomainCfg t.config domain).LockoutPeriod) ∧
        ((resolveDomainCfg t.config domain).LockoutPeriod ≤ 153722867 →
          record.ExpiresAt =
            some (now + (resolveDomainCfg t.config domain).LockoutPeriod * 60000000000))) ∧
      (¬ 0 < (resolveDomainCfg t.config domain).LockoutPeriod →
        (∀ s, mapGet t.strikes (strikeKey ip domain) = some s →
          record.ExpiresAt = s.ExpiresAt) ∧
        (mapGet t.strikes (strikeKey ip domain) = none → record.ExpiresAt = none)) := by
  obtain ⟨t1, h1, h2, _, _⟩ := RecordFailure_some t now blockNow fails ip domain reason hmgr
  refine ⟨t1, _, _, updateStrike now reason (resolveDomainCfg t.config domain)
    (t.fetchStrike now ip domain), h1, ?_, ?_, ?_⟩
  · rw [h2, mapGet_mapSet]
    simp
  · intro hpos
    have hexp := updateStrike_expiry now reason (resolveDomainCfg t.config domain)
      (t.fetchStrike now ip domain)
    rw [if_pos hpos] at hexp
    refine ⟨hexp, fun hle => ?_⟩
    rw [hexp, addMinutes_exact now _ (le_of_lt hpos) hle]
  · intro hnot
    have hexp := updateStrike_expiry now reason (resolveDomainCfg t.config domain)
      (t.fetchStrike now ip domain)
    rw [if_neg hnot] at hexp
    refine ⟨fun s hs => ?_, fun hnone => ?_⟩
    · rw [hexp]
      simp [Tracker.fetchStrike, hs]
    · rw [hexp]
      simp [Tracker.fetchStrike, hnone]

/-- Witness of C10: an excused timeout on example.com (30 minutes) at instant 7. -/
theorem C10_expiry_recomputed_witness :
    ∃ t1 count blocked record,
      sampleTracker.RecordFailure 7 8 noFault "1.2.3.4" "example.com" "timeout"
        = some (t1, count, blocked) ∧
      mapGet t1.strikes (strikeKey "1.2.3.4" "example.com") = some record ∧
      record.ExpiresAt = some (7 + 30 * 60000000000) := by
  obtain ⟨t1, count, blocked, record, h1, h2, h3, _⟩ :=
    C10_expiry_recomputed sampleTracker 7 8 noFault "1.2.3.4" "example.com" "timeout"
      (by simp [Manager.inRange, sampleTracker, sampleMgr])
  have hp : (resolveDomainCfg sampleTracker.config "example.com").LockoutPeriod = 30 := by
    decide
  rw [hp] at h3
  exact ⟨t1, count, blocked, record, h1, h2, (h3 (by norm_num)).2 (by norm_num)⟩

theorem reap_fold_db (now : Time) (es : List (String × Strike)) (acc : Tracker) :
    (es.foldl (Tracker.reapStrike now) acc).db.strikes =
      acc.db.strikes.filter
        (fun r => !(es.any (fun e => e.2.expired now &&
          (r.IP == e.2.IP && r.Domain == e.2.Domain)))) := by
  induction es generalizing acc with
  | nil => simp
  | cons e es ih =>
    rw [List.foldl_cons, ih]
    by_cases hx : e.2.expired now = true
    · simp only [Tracker.reapStrike, hx, if_true, DB.deleteStrike, List.filter_filter,
        List.any_cons, Bool.true_and]
      apply List.filter_congr
      intro r _
      cases (r.IP == e.2.IP && r.Domain == e.2.Domain) <;> simp
    · simp [Tracker.reapStrike, hx]

theorem CleanupExpired_db_strikes (t : Tracker) (now : Time) (fails : FwCall → Bool) :
    (t.CleanupExpired now fails).db.strikes =
      t.db.strikes.filter
        (fun r => !(t.strikes.any (fun e => e.2.expired now &&
          (r.IP == e.2.IP && r.Domain == e.2.Domain)))) := by
  unfold Tracker.CleanupExpired
  rw [(unjail_fold fails _ _).2.2.2.2, reap_fold_db]

theorem filter_expired_keys (now : Time) (m : List (String × Strike))
    (hnd : (m.map Prod.fst).Nodup) :
    m.filter (fun x => !(m.any (fun e => e.2.expired now && decide (e.1 = x.1)))) =
      m.filter (fun x => !(x.2.expired now)) := by
  apply List.filter_congr
  intro x hx
  congr 1
  cases hex : x.2.expired now with
  | true =>
    rw [List.any_eq_true]
    exact ⟨x, hx, by simp [hex]⟩
  | false =>
    rw [Bool.eq_false_iff]
    intro hany
    rw [List.any_eq_true] at hany
    obtain ⟨e, he, hp⟩ := hany
    simp only [Bool.and_eq_true, decide_eq_true_eq] at hp
    have := List.inj_on_of_nodup_map hnd he hx hp.2
    subst this
    rw [hex] at hp
    exact absurd hp.1 (by simp)

theorem mem_of_mapGet {α : Type} (m : List (String × α)) (k : String) (v : α)
    (h : mapGet m k = some v) : (k, v) ∈ m := by
  induction m with
  | nil => simp [mapGet] at h
  | cons e m ih =>
    obtain ⟨a, b⟩ := e
    by_cases hak : a = k
    · simp only [mapGet, hak, if_true, Option.some.injEq] at h
      subst h hak
      exact List.mem_cons_self _ _
    · simp only [mapGet, hak, if_false] at h
      exact List.mem_cons_of_mem _ (ih h)

/-- C11: run at instant `now` on an index that is a map, `CleanupExpired` keeps in the index
exactly the records that are not expired (those with no `ExpiresAt` or `ExpiresAt` not earlier
than `now`), unchanged, and deletes from table `strikes` exactly the rows keyed by the
`(IP, Domain)` of an expired record of the index; when the table holds just the records of
the index, the table too keeps exactly its unexpired rows. -/
theorem C11_sweep_reaps_expired_strikes (t : Tracker) (now : Time) (fails : FwCall → Bool)
    (hmap : (t.strikes.map Prod.fst).Nodup) :
    (t.CleanupExpired now fails).strikes = t.strikes.filter (fun e => !(e.2.expired now)) ∧
    (∀ K s, mapGet t.strikes K = some s →
      mapGet (t.CleanupExpired now fails).strikes K =
        if s.expired now then none else some s) ∧
    (∀ s : Strike, s.expired now = true ↔ ∃ e, s.ExpiresAt = some e ∧ e < now) ∧
    (t.CleanupExpired now fails).db.strikes =
      t.db.strikes.filter
        (fun r => !(t.strikes.any (fun e => e.2.expired now &&
          (r.IP == e.2.IP && r.Domain == e.2.Domain)))) ∧
    ((t.db.strikes.map (fun r => (r.IP, r.Domain))).Nodup →
      (∀ r, r ∈ t.db.strikes ↔ ∃ K, (K, r) ∈ t.strikes) →
      (t.CleanupExpired now fails).db.strikes =
        t.db.strikes.filter (fun r => !(r.expired now))) := by
  have hstr : (t.CleanupExpired now fails).strikes =
      t.strikes.filter (fun e => !(e.2.expired now)) := by
    rw [(CleanupExpired_strikes t now fails).1]
    exact filter_expired_keys now t.strikes hmap
  refine ⟨hstr, ?_, ?_, CleanupExpired_db_strikes t now fails, ?_⟩
  · intro K s hs
    by_cases hex : s.expired now = true
    · rw [(CleanupExpired_strikes t now fails).1]
      rw [mapGet_filter_key t.strikes
        (fun k => !(t.strikes.any (fun e => e.2.expired now && decide (e.1 = k)))) K]
      have hmem : (K, s) ∈ t.strikes := mem_of_mapGet t.strikes K s hs
      have hany : t.strikes.any (fun e => e.2.expired now && decide (e.1 = K)) = true := by
        rw [List.any_eq_true]
        exact ⟨(K, s), hmem, by simp [hex]⟩
      simp [hany, hex]
    · have hex' : s.expired now = false := by simpa using hex
      rw [CleanupExpired_keep t now fails K hmap (fun s' hs' => by
        rw [hs] at hs'; cases hs'; exact hex')]
      simp [hs, hex']
  · intro s
    unfold Strike.expired
    cases s.ExpiresAt with
    | none => simp
    | some e => simp
  · intro hpk hsync
    rw [CleanupExpired_db_strikes]
    apply List.filter_congr
    intro r hr
    congr 1
    cases hex : r.expired now with
    | true =>
      rw [List.any_eq_true]
      obtain ⟨K, hK⟩ := (hsync r).1 hr
      exact ⟨(K, r), hK, by simp [hex]⟩
    | false =>
      rw [Bool.eq_false_iff]
      intro hany
      rw [List.any_eq_true] at hany
      obtain ⟨e, he, hp⟩ := hany
      simp only [Bool.and_eq_true, beq_iff_eq] at hp
      have he2 : e.2 ∈ t.db.strikes := (hsync e.2).2 ⟨e.1, he⟩
      have heq : r = e.2 := List.inj_on_of_nodup_map hpk hr he2
        (by rw [hp.2.1, hp.2.2])
      rw [heq, hp.1] at hex
      cases hex

/-- Witness of C11: the sweep of the sample state at instant 100 keeps only the strike that
has no expiry, in the index and in the table. -/
theorem C11_sweep_reaps_expired_strikes_witness :
    ((sweepSample.CleanupExpired 100 noFault).strikes.map (fun e => e.1) =
        [strikeKey "5.6.7.8" "perm.example"]) ∧
    ((sweepSample.CleanupExpired 100 noFault).db.strikes.map (fun r => (r.IP, r.Domain)) =
        [("5.6.7.8", "perm.example")]) := by
  obtain ⟨h1, _, _, _, h5⟩ := C11_sweep_reaps_expired_strikes sweepSample 100 noFault
    (by decide)
  refine ⟨?_, ?_⟩
  · rw [h1]
    decide
  · rw [h5 (by decide) (by intro r; simp [sweepSample, exists_or])]
    decide

theorem unjail_fold_full (fails : FwCall → Bool) (rows : List (String × String))
    (acc : Tracker) :
    (rows.foldl (Tracker.unjail fails) acc).db = acc.db ∧
      (rows.foldl (Tracker.unjail fails) acc).ipsetMgr.fw.calls =
        (rows.map (fun row => FwCall.del row.2 row.1)).reverse ++ acc.ipsetMgr.fw.calls ∧
      ∀ S, (rows.foldl (Tracker.unjail fails) acc).ipsetMgr.fw.sets S =
        (acc.ipsetMgr.fw.sets S).filter (fun x => !(rows.any (fun row =>
          decide (row.2 = S) && decide (row.1 = x) && !(fails (FwCall.del row.2 row.1))))) := by
  induction rows generalizing acc with
  | nil => simp
  | cons row rows ih =>
    rw [List.foldl_cons]
    obtain ⟨h1, h2, h3⟩ := ih (Tracker.unjail fails acc row)
    refine ⟨?_, ?_, ?_⟩
    · rw [h1]
      rfl
    · rw [h2]
      by_cases hf : fails (FwCall.del row.2 row.1) = true <;>
        simp [Tracker.unjail, Manager.RemoveIP, FirewallManager.RemoveIPFromSet, hf]
    · intro S
      rw [h3 S]
      by_cases hf : fails (FwCall.del row.2 row.1) = true
      · simp [Tracker.unjail, Manager.RemoveIP, FirewallManager.RemoveIPFromSet, hf]
      · by_cases hS : S = row.2
        · subst hS
          simp only [Tracker.unjail, Manager.RemoveIP, FirewallManager.RemoveIPFromSet, hf,
            Bool.false_eq_true, if_false, if_true, List.filter_filter, List.any_cons,
            decide_True, Bool.true_and, Bool.not_false, Bool.and_true]
          apply List.filter_congr
          intro x _
          by_cases hx : row.1 = x
          · simp [hx]
          · simp [hx, Ne.symm hx]
        · simp only [Tracker.unjail, Manager.RemoveIP, FirewallManager.RemoveIPFromSet, hf,
            Bool.false_eq_true, if_false, hS, List.any_cons, Ne.symm hS, decide_False,
            Bool.false_and, Bool.false_or]

theorem CleanupExpired_rows (t : Tracker) (now : Time) (fails : FwCall → Bool) :
    (t.CleanupExpired now fails).db.blocked_ips = t.db.blocked_ips ∧
      (t.CleanupExpired now fails).ipsetMgr.fw.calls =
        ((t.db.expiredBlocked now).map (fun row => FwCall.del row.2 row.1)).reverse ++
          t.ipsetMgr.fw.calls ∧
      ∀ S, (t.CleanupExpired now fails).ipsetMgr.fw.sets S =
        (t.ipsetMgr.fw.sets S).filter (fun x => !((t.db.expiredBlocked now).any (fun row =>
          decide (row.2 = S) && decide (row.1 = x) && !(fails (FwCall.del row.2 row.1))))) := by
  obtain ⟨_, _, g3, g4⟩ := reap_fold now t.strikes t
  have hrows : (t.strikes.foldl (Tracker.reapStrike now) t).db.expiredBlocked now =
      t.db.expiredBlocked now := by
    unfold DB.expiredBlocked
    rw [g4]
  obtain ⟨h1, h2, h3⟩ := unjail_fold_full fails
    ((t.strikes.foldl (Tracker.reapStrike now) t).db.expiredBlocked now)
    (t.strikes.foldl (Tracker.reapStrike now) t)
  simp only [hrows, g3] at h2 h3
  simp only [hrows] at h1
  unfold Tracker.CleanupExpired
  simp only [hrows]
  refine ⟨?_, h2, h3⟩
  rw [h1, g4]

theorem CleanupExpired_unjail (t : Tracker) (now : Time) (fails : FwCall → Bool)
    (hpk : (t.db.blocked_ips.map (fun r => r.ip)).Nodup) :
    (t.CleanupExpired now fails).db.blocked_ips = t.db.blocked_ips ∧
    (t.CleanupExpired now fails).ipsetMgr.fw.calls =
      ((t.db.blocked_ips.filter (fun r => r.lapsed now)).map
        (fun r => FwCall.del r.ipset_name r.ip)).reverse ++ t.ipsetMgr.fw.calls ∧
    (∀ S x, x ∈ (t.CleanupExpired now fails).ipsetMgr.fw.sets S ↔
      (x ∈ t.ipsetMgr.fw.sets S ∧
        ¬ ∃ r, r ∈ t.db.blocked_ips ∧ r.lapsed now = true ∧ r.ipset_name = S ∧ r.ip = x ∧
          fails (FwCall.del S x) = false)) ∧
    (∀ r : BlockedIP, r.lapsed now = true ↔ ∃ e, r.lockout_expires = some e ∧ e < now) ∧
    (∀ r, r ∈ t.db.blocked_ips → r.lockout_expires = none →
      ∀ S, r.ip ∈ t.ipsetMgr.fw.sets S →
        r.ip ∈ (t.CleanupExpired now fails).ipsetMgr.fw.sets S) := by
  obtain ⟨h1, h2, h3⟩ := CleanupExpired_rows t now fails
  have hsets : ∀ S x, x ∈ (t.CleanupExpired now fails).ipsetMgr.fw.sets S ↔
      (x ∈ t.ipsetMgr.fw.sets S ∧
        ¬ ∃ r, r ∈ t.db.blocked_ips ∧ r.lapsed now = true ∧ r.ipset_name = S ∧ r.ip = x ∧
          fails (FwCall.del S x) = false) := by
    intro S x
    rw [h3 S, List.mem_filter]
    apply and_congr_right
    intro _
    rw [Bool.not_eq_true', ← Bool.not_eq_true, List.any_eq_true]
    apply not_congr
    constructor
    · rintro ⟨row, hrow, hp⟩
      unfold DB.expiredBlocked at hrow
      rw [List.mem_map] at hrow
      obtain ⟨r, hr, hrr⟩ := hrow
      rw [List.mem_filter] at hr
      subst hrr
      simp only [Bool.and_eq_true, decide_eq_true_eq, Bool.not_eq_true'] at hp
      obtain ⟨⟨hS, hx⟩, hf⟩ := hp
      refine ⟨r, hr.1, hr.2, hS, hx, ?_⟩
      rw [← hS, ← hx]
      exact hf
    · rintro ⟨r, hr, hl, hS, hx, hf⟩
      refine ⟨(r.ip, r.ipset_name), ?_, ?_⟩
      · unfold DB.expiredBlocked
        rw [List.mem_map]
        exact ⟨r, by rw [List.mem_filter]; exact ⟨hr, hl⟩, rfl⟩
      · simp only [Bool.and_eq_true, decide_eq_true_eq, Bool.not_eq_true']
        refine ⟨⟨hS, hx⟩, ?_⟩
        rw [hS, hx]
        exact hf
  refine ⟨h1, ?_, hsets, ?_, ?_⟩
  · rw [h2]
    unfold DB.expiredBlocked
    rw [List.map_map]
    rfl
  · intro r
    unfold BlockedIP.lapsed
    cases r.lockout_expires with
    | none => simp
    | some e => simp
  · intro r hr hnone S hmem
    have hnl : r.lapsed now = false := by
      unfold BlockedIP.lapsed
      rw [hnone]
    rw [hsets S r.ip]
    refine ⟨hmem, ?_⟩
    rintro ⟨r2, hr2, hl2, _, hip, _⟩
    have := List.inj_on_of_nodup_map hpk hr2 hr hip
    subst this
    rw [hnl] at hl2
    cases hl2

/-- C12 (what the code does): the sweep of the sample state at instant 100, every driver
call succeeding, asks for the lapsed row's IP to be deleted from "ukabu-temporary_0" and the
IP leaves the set, but the row whose `lockout_expires` is 50 is still in `blocked_ips`
afterwards, where a `DELETE` that took effect would leave the permanent row alone; so the
sweep one minute later asks for the same delete again. -/
theorem C12_lapsed_row_survives_sweep :
    sweepSample.db.blocked_ips.map (fun r => (r.ip, r.lockout_expires)) =
      [("1.2.3.4", some 50), ("9.9.9.9", none)] ∧
    (sweepSample.CleanupExpired 100 noFault).db.blocked_ips = sweepSample.db.blocked_ips ∧
    (sweepSample.db.deleteBlocked "1.2.3.4").blocked_ips.map (fun r => r.ip) = ["9.9.9.9"] ∧
    (sweepSample.CleanupExpired 100 noFault).ipsetMgr.fw.calls =
      [FwCall.del "ukabu-temporary_0" "1.2.3.4"] ∧
    (sweepSample.CleanupExpired 100 noFault).ipsetMgr.fw.sets "ukabu-temporary_0" = [] ∧
    ((sweepSample.CleanupExpired 100 noFault).CleanupExpired 60000000100
        noFault).ipsetMgr.fw.calls =
      [FwCall.del "ukabu-temporary_0" "1.2.3.4", FwCall.del "ukabu-temporary_0" "1.2.3.4"] := by
  refine ⟨by decide, by decide, by decide, by decide, by decide, by decide⟩

theorem reap_fold_id (now : Time) (es : List (String × Strike)) (acc : Tracker)
    (h : ∀ e, e ∈ es → e.2.expired now = false) :
    es.foldl (Tracker.reapStrike now) acc = acc := by
  induction es generalizing acc with
  | nil => rfl
  | cons e es ih =>
    rw [List.foldl_cons]
    have he : e.2.expired now = false := h e (List.mem_cons_self _ _)
    have hstep : Tracker.reapStrike now acc e = acc := by
      simp [Tracker.reapStrike, he]
    rw [hstep]
    exact ih acc (fun x hx => h x (List.mem_cons_of_mem _ hx))

theorem CleanupExpired_settled (t : Tracker) (now : Time) (fails : FwCall → Bool)
    (hs : ∀ e, e ∈ t.strikes → e.2.expired now = false) :
    t.CleanupExpired now fails =
      (t.db.expiredBlocked now).foldl (Tracker.unjail fails) t := by
  unfold Tracker.CleanupExpired
  simp only [reap_fold_id now t.strikes t hs]

theorem CleanupExpired_twice (t : Tracker) (now : Time) (fails1 fails2 : FwCall → Bool) :
    ((t.CleanupExpired now fails1).CleanupExpired now fails2).strikes =
      (t.CleanupExpired now fails1).strikes ∧
    ((t.CleanupExpired now fails1).CleanupExpired now fails2).db =
      (t.CleanupExpired now fails1).db ∧
    (fails2 = fails1 →
      ∀ S, ((t.CleanupExpired now fails1).CleanupExpired now fails2).ipsetMgr.fw.sets S =
        (t.CleanupExpired now fails1).ipsetMgr.fw.sets S) := by
  have hs : ∀ e, e ∈ (t.CleanupExpired now fails1).strikes → e.2.expired now = false := by
    intro e he
    rw [(CleanupExpired_strikes t now fails1).1, List.mem_filter] at he
    obtain ⟨hmem, hp⟩ := he
    cases hex : e.2.expired now with
    | false => rfl
    | true =>
      have hany : t.strikes.any (fun x => x.2.expired now && decide (x.1 = e.1)) = true := by
        rw [List.any_eq_true]
        exact ⟨e, hmem, by simp [hex]⟩
      rw [hany] at hp
      cases hp
  have hfold : (t.CleanupExpired now fails1).CleanupExpired now fails2 =
      ((t.CleanupExpired now fails1).db.expiredBlocked now).foldl (Tracker.unjail fails2)
        (t.CleanupExpired now fails1) := by
    exact CleanupExpired_settled (t.CleanupExpired now fails1) now fails2 hs
  obtain ⟨u1, _, _, _, _⟩ := unjail_fold fails2
    ((t.CleanupExpired now fails1).db.expiredBlocked now) (t.CleanupExpired now fails1)
  obtain ⟨v1, _, v3⟩ := unjail_fold_full fails2
    ((t.CleanupExpired now fails1).db.expiredBlocked now) (t.CleanupExpired now fails1)
  refine ⟨by rw [hfold, u1], by rw [hfold, v1], ?_⟩
  intro hsame S
  subst hsame
  rw [hfold, v3 S]
  have hrows : (t.CleanupExpired now fails2).db.expiredBlocked now =
      t.db.expiredBlocked now := by
    unfold DB.expiredBlocked
    rw [(CleanupExpired_rows t now fails2).1]
  rw [hrows, (CleanupExpired_rows t now fails2).2.2 S, List.filter_filter]
  apply List.filter_congr
  intro x _
  simp

/-- C13 (what the code does): on the sample state at instant 100, when the driver's delete
fails in the first sweep and succeeds in the second, "1.2.3.4" is a member of
"ukabu-temporary_0" after one sweep and is not after two: the lapsed row is still in
`blocked_ips` after the first sweep, so the second sweep acts on it again. -/
theorem C13_second_sweep_differs :
    (sweepSample.CleanupExpired 100
      (fun c => decide (c = FwCall.del "ukabu-temporary_0" "1.2.3.4"))).ipsetMgr.fw.sets
        "ukabu-temporary_0" = ["1.2.3.4"] ∧
    (sweepSample.CleanupExpired 100
      (fun c => decide (c = FwCall.del "ukabu-temporary_0" "1.2.3.4"))).db.blocked_ips =
        sweepSample.db.blocked_ips ∧
    ((sweepSample.CleanupExpired 100
      (fun c => decide (c = FwCall.del "ukabu-temporary_0" "1.2.3.4"))).CleanupExpired 100
        noFault).ipsetMgr.fw.sets "ukabu-temporary_0" = [] := by
  refine ⟨by decide, by decide, by decide⟩

theorem GetAvailableTemporarySet_stay (m : Manager) (fails : FwCall → Bool) (cur : String)
    (hcur : m.temporarySets[m.nextTempSet]? = some cur)
    (h : fails (FwCall.size cur) = true ∨ (m.fw.sets cur).length < MaxIPsPerTemporarySet) :
    m.GetAvailableTemporarySet fails =
      some ({ m with fw := { m.fw with calls := FwCall.size cur :: m.fw.calls } }, cur) := by
  unfold Manager.GetAvailableTemporarySet
  rw [hcur]
  simp only [FirewallManager.GetIPSetSize]
  by_cases hf : fails (FwCall.size cur) = true
  · simp [hf]
  · have hs : (m.fw.sets cur).length < MaxIPsPerTemporarySet := by
      rcases h with h | h
      · exact absurd h hf
      · exact h
    simp [hf, hs]

theorem GetAvailableTemporarySet_next (m : Manager) (fails : FwCall → Bool) (cur nxt : String)
    (hcur : m.temporarySets[m.nextTempSet]? = some cur)
    (hsize : fails (FwCall.size cur) = false)
    (hfull : MaxIPsPerTemporarySet ≤ (m.fw.sets cur).length)
    (hnxt : m.temporarySets[m.nextTempSet + 1]? = some nxt) :
    m.GetAvailableTemporarySet fails =
      some ({ m with fw := { m.fw with calls := FwCall.size cur :: m.fw.calls },
                     nextTempSet := m.nextTempSet + 1 }, nxt) := by
  have hlt : m.nextTempSet + 1 < m.temporarySets.length := by
    by_contra hge
    rw [List.getElem?_eq_none (by omega)] at hnxt
    cases hnxt
  unfold Manager.GetAvailableTemporarySet
  rw [hcur]
  simp only [FirewallManager.GetIPSetSize, hsize, Bool.false_eq_true, if_false]
  have hnl : ¬ (m.fw.sets cur).length < MaxIPsPerTemporarySet := by omega
  have hng : ¬ (m.nextTempSet + 1 ≥ m.temporarySets.length) := by omega
  simp only [hnl, if_false, hng, hnxt]

theorem GetAvailableTemporarySet_fallback (m : Manager) (fails : FwCall → Bool)
    (cur first : String)
    (hcur : m.temporarySets[m.nextTempSet]? = some cur)
    (hsize : fails (FwCall.size cur) = false)
    (hfull : MaxIPsPerTemporarySet ≤ (m.fw.sets cur).length)
    (hlast : m.nextTempSet + 1 ≥ m.temporarySets.length)
    (hcreate : fails (FwCall.create (TemporarySetPrefix ++ toString m.temporarySets.length)
      MaxIPsPerTemporarySet) = true)
    (hfirst : m.temporarySets[0]? = some first) :
    m.GetAvailableTemporarySet fails =
      some ({ m with
              fw := { m.fw with
                calls := FwCall.create (TemporarySetPrefix ++ toString m.temporarySets.length)
                  MaxIPsPerTemporarySet :: FwCall.size cur :: m.fw.calls },
              nextTempSet := 0 }, first) := by
  unfold Manager.GetAvailableTemporarySet
  rw [hcur]
  simp only [FirewallManager.GetIPSetSize, hsize, Bool.false_eq_true, if_false]
  have hnl : ¬ (m.fw.sets cur).length < MaxIPsPerTemporarySet := by omega
  simp only [hnl, if_false, hlast, if_true, Manager.createTemporarySet,
    FirewallManager.CreateIPSet, hcreate, hfirst]

theorem GetAvailableTemporarySet_spill (m : Manager) (fails : FwCall → Bool) (cur : String)
    (hcur : m.temporarySets[m.nextTempSet]? = some cur)
    (hsize : fails (FwCall.size cur) = false)
    (hfull : MaxIPsPerTemporarySet ≤ (m.fw.sets cur).length)
    (hlast : m.nextTempSet + 1 = m.temporarySets.length)
    (hcreate : fails (FwCall.create (TemporarySetPrefix ++ toString m.temporarySets.length)
      MaxIPsPerTemporarySet) = false) :
    m.GetAvailableTemporarySet fails =
      some ({ fw := { m.fw with
                calls := FwCall.rules [TemporarySetPrefix ++ toString m.temporarySets.length] ::
                  FwCall.create (TemporarySetPrefix ++ toString m.temporarySets.length)
                    MaxIPsPerTemporarySet :: FwCall.size cur :: m.fw.calls },
              temporarySets :=
                m.temporarySets ++ [TemporarySetPrefix ++ toString m.temporarySets.length],
              nextTempSet := m.nextTempSet + 1 },
            TemporarySetPrefix ++ toString m.temporarySets.length) := by
  unfold Manager.GetAvailableTemporarySet
  rw [hcur]
  simp only [FirewallManager.GetIPSetSize, hsize, Bool.false_eq_true, if_false]
  have hnl : ¬ (m.fw.sets cur).length < MaxIPsPerTemporarySet := by omega
  have hge : m.nextTempSet + 1 ≥ m.temporarySets.length := by omega
  simp [hnl, hge, Manager.createTemporarySet, FirewallManager.CreateIPSet, hcreate,
    FirewallManager.InstallFirewallRules, hlast]

theorem GetAvailableTemporarySet_cases (m : Manager) (fails : FwCall → Bool)
    (h : m.inRange) :
    ∃ cur, m.temporarySets[m.nextTempSet]? = some cur ∧
      (((fails (FwCall.size cur) = true ∨
            (m.fw.sets cur).length < MaxIPsPerTemporarySet) ∧
          m.GetAvailableTemporarySet fails =
            some ({ m with fw := { m.fw with calls := FwCall.size cur :: m.fw.calls } }, cur)) ∨
        (fails (FwCall.size cur) = false ∧
          MaxIPsPerTemporarySet ≤ (m.fw.sets cur).length ∧
          ∃ nxt, m.temporarySets[m.nextTempSet + 1]? = some nxt ∧
            m.GetAvailableTemporarySet fails =
              some ({ m with fw := { m.fw with calls := FwCall.size cur :: m.fw.calls },
                             nextTempSet := m.nextTempSet + 1 }, nxt)) ∨
        (fails (FwCall.size cur) = false ∧
          MaxIPsPerTemporarySet ≤ (m.fw.sets cur).length ∧
          m.nextTempSet + 1 = m.temporarySets.length ∧
          fails (FwCall.create (TemporarySetPrefix ++ toString m.temporarySets.length)
            MaxIPsPerTemporarySet) = true ∧
          ∃ first, m.temporarySets[0]? = some first ∧
            m.GetAvailableTemporarySet fails =
              some ({ m with
                fw := { m.fw with
                  calls := FwCall.create
                    (TemporarySetPrefix ++ toString m.temporarySets.length)
                    MaxIPsPerTemporarySet :: FwCall.size cur :: m.fw.calls },
                nextTempSet := 0 }, first)) ∨
        (fails (FwCall.size cur) = false ∧
          MaxIPsPerTemporarySet ≤ (m.fw.sets cur).length ∧
          m.nextTempSet + 1 = m.temporarySets.length ∧
          fails (FwCall.create (TemporarySetPrefix ++ toString m.temporarySets.length)
            MaxIPsPerTemporarySet) = false ∧
          m.GetAvailableTemporarySet fails =
            some ({ fw := { m.fw with
                      calls :=
                        FwCall.rules [TemporarySetPrefix ++ toString m.temporarySets.length] ::
                        FwCall.create (TemporarySetPrefix ++ toString m.temporarySets.length)
                          MaxIPsPerTemporarySet :: FwCall.size cur :: m.fw.calls },
                    temporarySets :=
                      m.temporarySets ++
                        [TemporarySetPrefix ++ toString m.temporarySets.length],
                    nextTempSet := m.nextTempSet + 1 },
                  TemporarySetPrefix ++ toString m.temporarySets.length))) := by
  unfold Manager.inRange at h
  refine ⟨m.temporarySets[m.nextTempSet], List.getElem?_eq_getElem h, ?_⟩
  have hcur := List.getElem?_eq_getElem h
  by_cases hf : fails (FwCall.size m.temporarySets[m.nextTempSet]) = true
  · exact Or.inl ⟨Or.inl hf, GetAvailableTemporarySet_stay m fails _ hcur (Or.inl hf)⟩
  have hf' : fails (FwCall.size m.temporarySets[m.nextTempSet]) = false := by simpa using hf
  by_cases hs : (m.fw.sets m.temporarySets[m.nextTempSet]).length < MaxIPsPerTemporarySet
  · exact Or.inl ⟨Or.inr hs, GetAvailableTemporarySet_stay m fails _ hcur (Or.inr hs)⟩
  have hs' : MaxIPsPerTemporarySet ≤ (m.fw.sets m.temporarySets[m.nextTempSet]).length := by
    omega
  by_cases hn : m.nextTempSet + 1 < m.temporarySets.length
  · exact Or.inr (Or.inl ⟨hf', hs', m.temporarySets[m.nextTempSet + 1],
      List.getElem?_eq_getElem hn,
      GetAvailableTemporarySet_next m fails _ _ hcur hf' hs' (List.getElem?_eq_getElem hn)⟩)
  have hlast : m.nextTempSet + 1 = m.temporarySets.length := by omega
  by_cases hc : fails (FwCall.create (TemporarySetPrefix ++ toString m.temporarySets.length)
      MaxIPsPerTemporarySet) = true
  · have h0 : 0 < m.temporarySets.length := by omega
    exact Or.inr (Or.inr (Or.inl ⟨hf', hs', hlast, hc, m.temporarySets[0],
      List.getElem?_eq_getElem h0,
      GetAvailableTemporarySet_fallback m fails _ _ hcur hf' hs' (by omega) hc
        (List.getElem?_eq_getElem h0)⟩))
  · have hc' : fails (FwCall.create (TemporarySetPrefix ++ toString m.temporarySets.length)
        MaxIPsPerTemporarySet) = false := by simpa using hc
    exact Or.inr (Or.inr (Or.inr ⟨hf', hs', hlast, hc',
      GetAvailableTemporarySet_spill m fails _ hcur hf' hs' hlast hc'⟩))

theorem Named_append (ts : List String)
    (h : ∀ i, i < ts.length → ts[i]? = some (TemporarySetPrefix ++ toString i)) :
    ∀ i, i < (ts ++ [TemporarySetPrefix ++ toString ts.length]).length →
      (ts ++ [TemporarySetPrefix ++ toString ts.length])[i]? =
        some (TemporarySetPrefix ++ toString i) := by
  intro i hi
  rw [List.length_append, List.length_singleton] at hi
  by_cases hlt : i < ts.length
  · rw [List.getElem?_append_left hlt]
    exact h i hlt
  · have : i = ts.length := by omega
    subst this
    simp

theorem GetAvailableTemporarySet_inv (m : Manager) (fails : FwCall → Bool) (m1 : Manager)
    (name : String) (hr : m.inRange) (hn : m.Named)
    (hg : m.GetAvailableTemporarySet fails = some (m1, name)) :
    m1.inRange ∧ m1.Named ∧ name ∈ m1.temporarySets := by
  obtain ⟨cur, hcur, hcases⟩ := GetAvailableTemporarySet_cases m fails hr
  unfold Manager.inRange at hr
  rcases hcases with ⟨_, he⟩ | ⟨_, _, nxt, hnxt, he⟩ | ⟨_, _, _, _, first, hfirst, he⟩ |
    ⟨_, _, hlast, _, he⟩
  · rw [he] at hg
    cases hg
    exact ⟨hr, hn, List.getElem?_mem hcur⟩
  · rw [he] at hg
    cases hg
    have hlt : m.nextTempSet + 1 < m.temporarySets.length := by
      by_contra hge
      rw [List.getElem?_eq_none (by omega)] at hnxt
      cases hnxt
    exact ⟨hlt, hn, List.getElem?_mem hnxt⟩
  · rw [he] at hg
    cases hg
    exact ⟨by show 0 < m.temporarySets.length; omega, hn, List.getElem?_mem hfirst⟩
  · rw [he] at hg
    cases hg
    refine ⟨?_, Named_append m.temporarySets hn, ?_⟩
    · show m.nextTempSet + 1 < (m.temporarySets ++ _).length
      rw [List.length_append, List.length_singleton]
      omega
    · simp

theorem Reachable_inv (m : Manager) (h : m.Reachable) : m.inRange ∧ m.Named := by
  induction h with
  | init fw fails m hinit =>
    refine ⟨Initialize_inRange fw fails m hinit, ?_⟩
    unfold Manager.Initialize at hinit
    simp only [NewManager, FirewallManager.CreateIPSet, Manager.createTemporarySet,
      FirewallManager.InstallFirewallRules] at hinit
    by_cases h1 : fails (FwCall.create PermanentSetName 50000) = true
    · simp [h1] at hinit
    by_cases h2 : fails (FwCall.create WhitelistSetName 50000) = true
    · simp [h1, h2] at hinit
    by_cases h3 : fails (FwCall.create SearchEngineSetName 50000) = true
    · simp [h1, h2, h3] at hinit
    by_cases h4 : fails (FwCall.create (TemporarySetPrefix ++ toString 0)
        MaxIPsPerTemporarySet) = true
    · simp [h1, h2, h3, h4] at hinit
    by_cases h5 : fails (FwCall.rules [PermanentSetName, TemporarySetPrefix ++ "0"]) = true
    · simp [h1, h2, h3, h4, h5] at hinit
    simp only [h1, h2, h3, h4, h5, Bool.false_eq_true, if_false, Option.some.injEq] at hinit
    subst hinit
    intro i hi
    simp only [List.nil_append, List.length_singleton] at hi
    have : i = 0 := by omega
    subst this
    simp
  | get m fails m1 name _ hg ih =>
    obtain ⟨h1, h2, _⟩ := GetAvailableTemporarySet_inv m fails m1 name ih.1 ih.2 hg
    exact ⟨h1, h2⟩
  | add m fails setName ip _ ih => exact ih
  | remove m fails setName ip _ ih => exact ih

theorem fullShard_reachable : fullShard.Reachable :=
  Manager.Reachable.init fullKernel noFault fullShard rfl

theorem fullShard_size : (fullShard.fw.sets "ukabu-temporary_0").length = 20000 := by
  simp [fullShard, fullKernel]

/-- C14 (what the code does): in the state a successful `Initialize` reaches on a kernel
whose "ukabu-temporary_0" holds 20000 addresses, `GetAvailableTemporarySet` returns that
full set both when the size query fails and when the creation of the next shard fails. -/
theorem C14_full_set_returned :
    fullShard.Reachable ∧
    (∃ m1, fullShard.GetAvailableTemporarySet
        (fun c => decide (c = FwCall.size "ukabu-temporary_0")) =
          some (m1, "ukabu-temporary_0") ∧
      ¬ (m1.fw.sets "ukabu-temporary_0").length < MaxIPsPerTemporarySet) ∧
    (∃ m2, fullShard.GetAvailableTemporarySet
        (fun c => decide (c = FwCall.create "ukabu-temporary_1" 20000)) =
          some (m2, "ukabu-temporary_0") ∧
      ¬ (m2.fw.sets "ukabu-temporary_0").length < MaxIPsPerTemporarySet) := by
  refine ⟨fullShard_reachable, ⟨_, GetAvailableTemporarySet_stay fullShard _
    "ukabu-temporary_0" rfl (Or.inl rfl), ?_⟩, ⟨_, GetAvailableTemporarySet_fallback fullShard _
    "ukabu-temporary_0" "ukabu-temporary_0" rfl rfl ?_ (by decide) rfl rfl, ?_⟩⟩
  · simp only [fullShard_size]
    decide
  · rw [fullShard_size]
    decide
  · simp only [fullShard_size]
    decide

/-- C15 (counterexample): "ukabu-temporary_0" is the active set and the last shard, it holds
20000 addresses and the creation of "ukabu-temporary_1" would succeed, but the size query
fails: `GetAvailableTemporarySet` returns "ukabu-temporary_0", creates no shard, asks for no
drop rule and leaves the list and the active index as they were. -/
theorem C15_size_error_stops_spill :
    fullShard.temporarySets[fullShard.nextTempSet]? = some "ukabu-temporary_0" ∧
    fullShard.nextTempSet + 1 = fullShard.temporarySets.length ∧
    MaxIPsPerTemporarySet ≤ (fullShard.fw.sets "ukabu-temporary_0").length ∧
    (fun c => decide (c = FwCall.size "ukabu-temporary_0"))
      (FwCall.create "ukabu-temporary_1" MaxIPsPerTemporarySet) = false ∧
    ∃ m1, fullShard.GetAvailableTemporarySet
        (fun c => decide (c = FwCall.size "ukabu-temporary_0")) =
          some (m1, "ukabu-temporary_0") ∧
      m1.temporarySets = ["ukabu-temporary_0"] ∧
      m1.nextTempSet = 0 ∧
      m1.fw.calls = FwCall.size "ukabu-temporary_0" :: fullShard.fw.calls := by
  refine ⟨rfl, rfl, ?_, by decide, _, GetAvailableTemporarySet_stay fullShard _
    "ukabu-temporary_0" rfl (Or.inl rfl), rfl, rfl, rfl⟩
  rw [fullShard_size]
  decide

/-- C15 (amended): when the active set is the last shard, the size query succeeds and
reports 20000 members or more, and the creation succeeds, `GetAvailableTemporarySet` creates
the shard named by the next index, appends it to the list, asks for a drop rule for that one
set, advances the active index by one and returns the new name, leaving the kernel sets as
they were; when the active set holds fewer than 20000 members it returns the active set and
changes neither the list, the index nor the kernel sets, its only driver call being the size
query. -/
theorem C15_shard_spill (m : Manager) (fails : FwCall → Bool) (cur : String)
    (hcur : m.temporarySets[m.nextTempSet]? = some cur) :
    (m.nextTempSet + 1 = m.temporarySets.length →
      fails (FwCall.size cur) = false →
      MaxIPsPerTemporarySet ≤ (m.fw.sets cur).length →
      fails (FwCall.create (TemporarySetPrefix ++ toString (m.nextTempSet + 1))
        MaxIPsPerTemporarySet) = false →
      ∃ m1, m.GetAvailableTemporarySet fails =
          some (m1, TemporarySetPrefix ++ toString (m.nextTempSet + 1)) ∧
        m1.temporarySets =
          m.temporarySets ++ [TemporarySetPrefix ++ toString (m.nextTempSet + 1)] ∧
        m1.nextTempSet = m.nextTempSet + 1 ∧
        m1.temporarySets[m1.nextTempSet]? =
          some (TemporarySetPrefix ++ toString (m.nextTempSet + 1)) ∧
        m1.fw.calls =
          FwCall.rules [TemporarySetPrefix ++ toString (m.nextTempSet + 1)] ::
            FwCall.create (TemporarySetPrefix ++ toString (m.nextTempSet + 1))
              MaxIPsPerTemporarySet :: FwCall.size cur :: m.fw.calls ∧
        m1.fw.sets = m.fw.sets) ∧
    ((m.fw.sets cur).length < MaxIPsPerTemporarySet →
      ∃ m1, m.GetAvailableTemporarySet fails = some (m1, cur) ∧
        m1.temporarySets = m.temporarySets ∧
        m1.nextTempSet = m.nextTempSet ∧
        m1.fw.sets = m.fw.sets ∧
        m1.fw.calls = FwCall.size cur :: m.fw.calls) := by
  refine ⟨?_, ?_⟩
  · intro hlast hsize hfull hcreate
    have hcreate1 : fails (FwCall.create
        (TemporarySetPrefix ++ toString m.temporarySets.length) MaxIPsPerTemporarySet) =
        false := by
      rw [← hlast]
      exact hcreate
    have he := GetAvailableTemporarySet_spill m fails cur hcur hsize hfull hlast hcreate1
    rw [← hlast] at he
    refine ⟨_, he, rfl, rfl, ?_, rfl, rfl⟩
    simp [hlast]
  · intro hroom
    exact ⟨_, GetAvailableTemporarySet_stay m fails cur hcur (Or.inr hroom), rfl, rfl, rfl, rfl⟩

/-- Witness of C15 (amended): with "ukabu-temporary_0" full, the call creates and returns
"ukabu-temporary_1". -/
theorem C15_shard_spill_witness :
    ∃ m1, fullShard.GetAvailableTemporarySet noFault = some (m1, "ukabu-temporary_1") ∧
      m1.temporarySets = ["ukabu-temporary_0", "ukabu-temporary_1"] ∧
      m1.nextTempSet = 1 ∧
      m1.fw.calls = FwCall.rules ["ukabu-temporary_1"] ::
        FwCall.create "ukabu-temporary_1" 20000 :: FwCall.size "ukabu-temporary_0" ::
          fullShard.fw.calls := by
  obtain ⟨m1, hg, hts, hnext, _, hcalls, _⟩ :=
    (C15_shard_spill fullShard noFault "ukabu-temporary_0" rfl).1 rfl rfl
      (by rw [fullShard_size]; decide) rfl
  exact ⟨m1, hg, hts, hnext, hcalls⟩

/-- C19: in every state reachable from a successful `Initialize` by calls of
`GetAvailableTemporarySet` (and adds and removes), whatever the driver answers, the shard list
is not empty, its `i`-th entry is "ukabu-temporary_" followed by `i`, and `nextTempSet` is
below the length of the list, so the next call returns a shard of the list instead of
panicking; and when that call attempts a creation that fails, it leaves the list as it was,
sets the active index to 0 and returns the first shard, "ukabu-temporary_0". -/
theorem C19_shard_index_in_range (m : Manager) (fails : FwCall → Bool)
    (hreach : m.Reachable) :
    m.temporarySets ≠ [] ∧
    (∀ i, i < m.temporarySets.length →
      m.temporarySets[i]? = some (TemporarySetPrefix ++ toString i)) ∧
    m.nextTempSet < m.temporarySets.length ∧
    (∃ m1 name, m.GetAvailableTemporarySet fails = some (m1, name) ∧
      name ∈ m1.temporarySets ∧ m1.Reachable) ∧
    (∀ cur, m.temporarySets[m.nextTempSet]? = some cur →
      fails (FwCall.size cur) = false →
      MaxIPsPerTemporarySet ≤ (m.fw.sets cur).length →
      m.nextTempSet + 1 ≥ m.temporarySets.length →
      fails (FwCall.create (TemporarySetPrefix ++ toString m.temporarySets.length)
        MaxIPsPerTemporarySet) = true →
      ∃ m1, m.GetAvailableTemporarySet fails = some (m1, "ukabu-temporary_0") ∧
        m1.nextTempSet = 0 ∧ m1.temporarySets = m.temporarySets ∧
        m1.temporarySets[0]? = some "ukabu-temporary_0") := by
  obtain ⟨hr, hn⟩ := Reachable_inv m hreach
  have hpos : 0 < m.temporarySets.length := by
    unfold Manager.inRange at hr
    omega
  have hfirst : m.temporarySets[0]? = some "ukabu-temporary_0" := hn 0 hpos
  refine ⟨?_, hn, hr, ?_, ?_⟩
  · intro hnil
    rw [hnil] at hpos
    simp at hpos
  · obtain ⟨m1, name, hg, _, _⟩ := GetAvailableTemporarySet_inRange m fails hr
    exact ⟨m1, name, hg, (GetAvailableTemporarySet_inv m fails m1 name hr hn hg).2.2,
      Manager.Reachable.get m fails m1 name hreach hg⟩
  · intro cur hcur hsize hfull hlast hcreate
    exact ⟨_, GetAvailableTemporarySet_fallback m fails cur "ukabu-temporary_0" hcur hsize
      hfull hlast hcreate hfirst, rfl, rfl, hfirst⟩

/-- Witness of C19: the full first shard, with the creation of the second one failing. -/
theorem C19_shard_index_in_range_witness :
    ∃ m1, fullShard.GetAvailableTemporarySet
        (fun c => decide (c = FwCall.create "ukabu-temporary_1" 20000)) =
          some (m1, "ukabu-temporary_0") ∧
      m1.nextTempSet = 0 ∧ m1.temporarySets = ["ukabu-temporary_0"] := by
  obtain ⟨_, _, _, _, h5⟩ := C19_shard_index_in_range fullShard
    (fun c => decide (c = FwCall.create "ukabu-temporary_1" 20000)) fullShard_reachable
  obtain ⟨m1, hg, hnext, hts, _⟩ := h5 "ukabu-temporary_0" rfl rfl
    (by rw [fullShard_size]; decide) (by decide) rfl
  exact ⟨m1, hg, hnext, hts⟩

theorem RecordSuccess_inRange (t : Tracker) (ip domain : String) (h : t.ipsetMgr.inRange) :
    (t.RecordSuccess ip domain).ipsetMgr.inRange := by
  unfold Tracker.RecordSuccess
  cases mapGet t.strikes (strikeKey ip domain) <;> exact h

/-- C16: for every sequence of lines delivered on a connection, `handleConnection` makes one
write per non-empty line, in order, each the marshalled reply followed by a newline, and the
replies are those of the protocol: the pair returned by `RecordFailure` for a "failure"
request, `(0, false)` after `RecordSuccess` for a "success" request, and for a line that does
not decode ("invalid JSON") or has another type a reply with count 0, not blocked and a
non-empty message, the tracker being left untouched; the lines after such a line are served
all the same. -/
theorem C16_one_reply_per_line (decode : String → Option Message)
    (encode : Response → String) (input : List Incoming) (t : Tracker)
    (written : List String) (hmgr : t.ipsetMgr.inRange) :
    ∃ t1 replies,
      handleConnection decode encode t written input =
        some (t1, written ++ replies.map (fun r => encode r ++ "\n")) ∧
      Served decode t input replies t1 ∧
      replies.length = (input.filter (fun inc => decide (inc.line ≠ ""))).length := by
  induction input generalizing t written with
  | nil => exact ⟨t, [], by simp [handleConnection], Served.done t, rfl⟩
  | cons inc rest ih =>
    by_cases hline : inc.line = ""
    · obtain ⟨t1, rs, h1, h2, h3⟩ := ih t written hmgr
      refine ⟨t1, rs, ?_, Served.blank t t1 inc rest rs hline h2, ?_⟩
      · simp only [handleConnection, hline, if_true]
        exact h1
      · simp [List.filter_cons, hline, h3]
    · cases hdec : decode inc.line with
      | none =>
        obtain ⟨t1, rs, h1, h2, h3⟩ := ih t (sendResponse encode written
          { StrikeCount := 0, Blocked := false, Message := "invalid JSON" }) hmgr
        refine ⟨t1, { StrikeCount := 0, Blocked := false, Message := "invalid JSON" } :: rs,
          ?_, Served.invalid t t1 inc rest rs hline hdec h2, ?_⟩
        · simp only [handleConnection, hline, if_false, hdec]
          rw [h1]
          simp [sendResponse]
        · simp [List.filter_cons, hline, h3]
      | some msg =>
        by_cases hf : msg.Kind = "failure"
        · obtain ⟨u, hu, _, _, hin⟩ := RecordFailure_some t inc.now inc.blockNow inc.fails
            msg.IP msg.Domain msg.Reason hmgr
          obtain ⟨t1, rs, h1, h2, h3⟩ := ih u (sendResponse encode written
            { StrikeCount := (updateStrike inc.now msg.Reason
                (resolveDomainCfg t.config msg.Domain)
                (t.fetchStrike inc.now msg.IP msg.Domain)).StrikeCount,
              Blocked := decide ((updateStrike inc.now msg.Reason
                (resolveDomainCfg t.config msg.Domain)
                (t.fetchStrike inc.now msg.IP msg.Domain)).StrikeCount ≥ 3),
              Message := "" }) hin
          refine ⟨t1, _ :: rs, ?_, Served.failure t u t1 inc rest rs msg _ _ hline hdec hf
            hu h2, ?_⟩
          · simp only [handleConnection, hline, if_false, hdec, handleMessage, hf, if_true, hu]
            rw [h1]
            simp [sendResponse]
          · simp [List.filter_cons, hline, h3]
        · by_cases hs : msg.Kind = "success"
          · obtain ⟨t1, rs, h1, h2, h3⟩ := ih (t.RecordSuccess msg.IP msg.Domain)
              (sendResponse encode written
                { StrikeCount := 0, Blocked := false, Message := "" })
              (RecordSuccess_inRange t msg.IP msg.Domain hmgr)
            refine ⟨t1, _ :: rs, ?_, Served.success t t1 inc rest rs msg hline hdec hs h2, ?_⟩
            · simp only [handleConnection, hline, if_false, hdec, handleMessage]
              rw [if_neg hf, if_pos hs]
              simp only []
              rw [h1]
              simp [sendResponse]
            · simp [List.filter_cons, hline, h3]
          · obtain ⟨t1, rs, h1, h2, h3⟩ := ih t (sendResponse encode written
              { StrikeCount := 0, Blocked := false, Message := "unknown message type" }) hmgr
            refine ⟨t1, _ :: rs, ?_, Served.unknown t t1 inc rest rs msg
              "unknown message type" hline hdec hf hs (by decide) h2, ?_⟩
            · simp only [handleConnection, hline, if_false, hdec, handleMessage]
              rw [if_neg hf, if_neg hs]
              simp only []
              rw [h1]
              simp [sendResponse]
            · simp [List.filter_cons, hline, h3]

/-- Witness of C16: the sample connection gets three replies, the last one for the failure
request that follows the malformed line and the unknown request. -/
theorem C16_one_reply_per_line_witness :
    ∃ t1, handleConnection sampleDecode sampleEncode sampleTracker [] sampleLines =
      some (t1,
        ["\x7b\"strike_count\":0,\"blocked\":false,\"message\":\"invalid JSON\"\x7d\n",
         "\x7b\"strike_count\":0,\"blocked\":false,\"message\":\"unknown message type\"\x7d\n",
         "\x7b\"strike_count\":1,\"blocked\":false\x7d\n"]) := by
  obtain ⟨t1, replies, h, _, _⟩ := C16_one_reply_per_line sampleDecode sampleEncode
    sampleLines sampleTracker [] (by simp [Manager.inRange, sampleTracker, sampleMgr])
  have hev : (handleConnection sampleDecode sampleEncode sampleTracker [] sampleLines).map
      (fun r => r.2) =
      some ["\x7b\"strike_count\":0,\"blocked\":false,\"message\":\"invalid JSON\"\x7d\n",
         "\x7b\"strike_count\":0,\"blocked\":false,\"message\":\"unknown message type\"\x7d\n",
         "\x7b\"strike_count\":1,\"blocked\":false\x7d\n"] := by
    rfl
  rw [h] at hev
  simp only [Option.map_some', Option.some.injEq] at hev
  rw [hev] at h
  exact ⟨t1, h⟩

/-- C17 (what the code does): `Load` turns the domain's `lockout_period` written as 0 into
the default's 30, so the third failure on that domain puts the IP into "ukabu-temporary_0",
not into "ukabu-permanent", and records `lockout_expires`. -/
theorem C17_zero_lockout_takes_default :
    (mapGet (Load permanentRaw).Domains "perm.example").map (fun c => c.LockoutPeriod) =
      some 30 ∧
    ((permanentTracker.run
        [Op.failure 10 10 noFault "5.6.7.8" "perm.example" "hmac_failed",
         Op.failure 20 20 noFault "5.6.7.8" "perm.example" "hmac_failed"]).bind
      (fun t => t.RecordFailure 100 101 noFault "5.6.7.8" "perm.example" "hmac_failed")).map
      (fun r => (r.2.1, r.2.2, r.1.db.blocked_ips, r.1.ipsetMgr.fw.sets "ukabu-permanent",
        r.1.ipsetMgr.fw.sets "ukabu-temporary_0")) =
      some (3, true,
        [{ ip := "5.6.7.8", domain := "perm.example", blocked_at := 101,
           lockout_expires := some (101 + 30 * 60000000000), reason := "3_strikes",
           ipset_name := "ukabu-temporary_0" }],
        [], ["5.6.7.8"]) :=
  ⟨rfl, rfl⟩

theorem applyDefaults_fields (d : DefaultConfig) (c : DomainConfig) :
    (applyDefaults d c).LockoutPeriod =
        (if c.LockoutPeriod = 0 then d.LockoutPeriod else c.LockoutPeriod) ∧
      (applyDefaults d c).POWDifficulty =
        (if c.POWDifficulty = 0 then d.POWDifficulty else c.POWDifficulty) ∧
      (applyDefaults d c).CookieDuration =
        (if c.CookieDuration = 0 then d.CookieDuration else c.CookieDuration) ∧
      (applyDefaults d c).ExcuseFirstTimeout = c.ExcuseFirstTimeout := by
  unfold applyDefaults
  by_cases h1 : c.POWDifficulty = 0 <;> by_cases h2 : c.CookieDuration = 0 <;>
    by_cases h3 : c.LockoutPeriod = 0 <;> simp [h1, h2, h3]

theorem colon_split (l1 l2 d1 d2 : List Char) (h1 : ':' ∉ d1) (h2 : ':' ∉ d2)
    (h : l1 ++ ':' :: d1 = l2 ++ ':' :: d2) : l1 = l2 ∧ d1 = d2 := by
  induction l1 generalizing l2 with
  | nil =>
    cases l2 with
    | nil =>
      simp only [List.nil_append, List.cons.injEq, true_and] at h
      exact ⟨rfl, h⟩
    | cons y l2 =>
      simp only [List.nil_append, List.cons_append, List.cons.injEq] at h
      exfalso
      apply h1
      rw [h.2]
      simp
  | cons x l1 ih =>
    cases l2 with
    | nil =>
      simp only [List.nil_append, List.cons_append, List.cons.injEq] at h
      exfalso
      apply h2
      rw [← h.2]
      simp
    | cons y l2 =>
      simp only [List.cons_append, List.cons.injEq] at h
      obtain ⟨e1, e2⟩ := ih l2 h.2
      exact ⟨by rw [h.1, e1], e2⟩

theorem strikeKey_ne_of_no_colon (ip1 domain1 ip2 domain2 : String)
    (h1 : ':' ∉ domain1.data) (h2 : ':' ∉ domain2.data)
    (hne : (ip1, domain1) ≠ (ip2, domain2)) :
    strikeKey ip1 domain1 ≠ strikeKey ip2 domain2 := by
  intro hk
  apply hne
  unfold strikeKey at hk
  have hd := congrArg String.data hk
  simp only [String.data_append] at hd
  rw [List.append_assoc, List.append_assoc] at hd
  obtain ⟨e1, e2⟩ := colon_split ip1.data ip2.data domain1.data domain2.data h1 h2 hd
  rw [Prod.mk.injEq]
  exact ⟨String.ext e1, String.ext e2⟩

/-- C18 (counterexample): the pairs ("1.2.3.4", "evil:example.com") and
("1.2.3.4:evil", "example.com") are distinct and share the key, so a failure recorded for the
first changes `GetStrikeCount` of the second from 0 to 1, and a success of the first then
deletes the record of the second. -/
theorem C18_distinct_pairs_share_key :
    (("1.2.3.4", "evil:example.com") : String × String) ≠ ("1.2.3.4:evil", "example.com") ∧
    sampleTracker.GetStrikeCount "1.2.3.4:evil" "example.com" = 0 ∧
    (sampleTracker.RecordFailure 10 10 noFault "1.2.3.4" "evil:example.com" "hmac_failed").map
      (fun r => r.1.GetStrikeCount "1.2.3.4:evil" "example.com") = some 1 ∧
    (strikesOn "1.2.3.4:evil" "example.com" 2).GetStrikeCount "1.2.3.4:evil" "example.com"
      = 2 ∧
    ((strikesOn "1.2.3.4:evil" "example.com" 2).RecordSuccess "1.2.3.4"
      "evil:example.com").GetStrikeCount "1.2.3.4:evil" "example.com" = 0 := by
  refine ⟨by decide, by decide, by decide, by decide, by decide⟩

/-- C18 (amended): for two pairs whose keys `ip + ":" + domain` differ, `RecordFailure` and
`RecordSuccess` on the first leave the record stored for the second, and its
`GetStrikeCount`, unchanged; the keys of two distinct pairs differ whenever neither domain
contains a colon. -/
theorem C18_other_key_untouched (t : Tracker) (now blockNow : Time) (fails : FwCall → Bool)
    (ip1 domain1 reason ip2 domain2 : String) (hmgr : t.ipsetMgr.inRange)
    (hkey : strikeKey ip1 domain1 ≠ strikeKey ip2 domain2) :
    (∃ t1 count blocked,
      t.RecordFailure now blockNow fails ip1 domain1 reason = some (t1, count, blocked) ∧
      mapGet t1.strikes (strikeKey ip2 domain2) = mapGet t.strikes (strikeKey ip2 domain2) ∧
      t1.GetStrikeCount ip2 domain2 = t.GetStrikeCount ip2 domain2) ∧
    mapGet (t.RecordSuccess ip1 domain1).strikes (strikeKey ip2 domain2) =
      mapGet t.strikes (strikeKey ip2 domain2) ∧
    (t.RecordSuccess ip1 domain1).GetStrikeCount ip2 domain2 = t.GetStrikeCount ip2 domain2 ∧
    (∀ a b c d : String, ':' ∉ b.data → ':' ∉ d.data → (a, b) ≠ (c, d) →
      strikeKey a b ≠ strikeKey c d) := by
  refine ⟨?_, ?_, ?_, fun a b c d hb hd hne => strikeKey_ne_of_no_colon a b c d hb hd hne⟩
  · obtain ⟨t1, h1, h2, _, _⟩ := RecordFailure_some t now blockNow fails ip1 domain1 reason hmgr
    have hget : mapGet t1.strikes (strikeKey ip2 domain2) =
        mapGet t.strikes (strikeKey ip2 domain2) := by
      rw [h2, mapGet_mapSet]
      simp [hkey]
    refine ⟨t1, _, _, h1, hget, ?_⟩
    unfold Tracker.GetStrikeCount
    rw [hget]
  · rw [RecordSuccess_get]
    simp [hkey]
  · unfold Tracker.GetStrikeCount
    rw [RecordSuccess_get]
    simp [hkey]

/-- Witness of C18 (amended): a failure on example.com leaves the record of another IP. -/
theorem C18_other_key_untouched_witness :
    ∃ t1 count blocked,
      (strikesOn "5.6.7.8" "example.com" 2).RecordFailure 10 10 noFault
        "1.2.3.4" "example.com" "hmac_failed" = some (t1, count, blocked) ∧
      t1.GetStrikeCount "5.6.7.8" "example.com" = 2 := by
  obtain ⟨⟨t1, count, blocked, h1, _, h3⟩, _⟩ :=
    C18_other_key_untouched (strikesOn "5.6.7.8" "example.com" 2) 10 10 noFault
      "1.2.3.4" "example.com" "hmac_failed" "5.6.7.8" "example.com"
      (by simp [Manager.inRange, strikesOn, sampleTracker, sampleMgr]) (by decide)
  refine ⟨t1, count, blocked, h1, ?_⟩
  rw [h3]
  decide

end Ukabu
